import Mathlib

/-!
Verification development for the asg53 lifecycle handler.

The Go sources are shallowly embedded: pure functions become Lean
functions; the in-place mutation of the Route 53 change batch during
template rendering becomes explicit state passing over `List Change`;
collaborator services (EC2 DescribeInstances, Route 53
ListResourceRecordSets / ChangeResourceRecordSets / GetChange, JSON
decoding) are abstract functions supplied through an `Env` record, and
the calls the handler makes to them are recorded in an explicit trace.
Go template strings are embedded in parsed form (`TField`), with
`TField.srcText` recovering the literal string the program stores; a
template string that fails to parse is `TField.bad`.  Go runtime faults
(slice index out of range) are the `GoResult.fault` outcome.
-/

namespace Asg53

/-- One parsed item of a Go template string over `instanceData`:
either literal text or one of the four template fields the program
exposes. -/
inductive TItem where
  | lit (s : String)
  | instanceID
  | privateIP
  | publicIP
  | existing (rrSetIndex rDataIndex : Int)
deriving DecidableEq, Repr

/-- The literal source text of a template item, as it appears in the
stored string. -/
def TItem.srcText : TItem → String
  | .lit s => s
  | .instanceID => "\x7b\x7b.InstanceID\x7d\x7d"
  | .privateIP => "\x7b\x7b.InstancePrivateIPAddress\x7d\x7d"
  | .publicIP => "\x7b\x7b.InstancePublicIPAddress\x7d\x7d"
  | .existing i j =>
      "\x7b\x7b.ExistingRDataValue " ++ toString i ++ " " ++ toString j ++ "\x7d\x7d"

/-- A template-bearing string field of the change batch (a
ResourceRecordSet Name or a ResourceRecord Value): either a string that
fails to parse as a template, or its parsed item list. -/
inductive TField where
  | bad (src : String)
  | tmpl (items : List TItem)
deriving DecidableEq, Repr

/-- The string the program actually stores for this field. -/
def TField.srcText : TField → String
  | .bad s => s
  | .tmpl items => String.join (items.map TItem.srcText)

/-- A field is a rendered literal: a single literal item, the shape
every field has after `WriteTemplateFields` replaced it. -/
def TField.isLit : TField → Bool
  | .tmpl [TItem.lit _] => true
  | _ => false

/-- route53.ResourceRecord, keeping only the Value field the program
reads and writes. -/
structure ResourceRecord where
  Value : TField
deriving DecidableEq, Repr

/-- route53.ResourceRecordSet.  The Go field named Type is `rrType`
here because Type is a Lean keyword. -/
structure RRSet where
  Name : TField
  TTL : Int
  rrType : String
  ResourceRecords : List ResourceRecord
deriving DecidableEq, Repr

/-- route53.Change: one entry of the change batch. -/
structure Change where
  Action : String
  ResourceRecordSet : RRSet
deriving DecidableEq, Repr

/-- route53.ListResourceRecordSetsInput as built by
FindRoute53ResourceRecord. -/
structure ListResourceRecordSetsInput where
  HostedZoneId : String
  MaxItems : String
  StartRecordName : String
  StartRecordType : String
deriving DecidableEq, Repr

/-- One resource record set of a ListResourceRecordSets response: its
name, its type and its record values. -/
structure RRSetEntry where
  Name : String
  rrType : String
  ResourceRecords : List String
deriving DecidableEq, Repr

/-- The Route 53 listing collaborator: a response (or transport error)
for every listing request. -/
abbrev ListEndpoint := ListResourceRecordSetsInput → Except String (List RRSetEntry)

/-- The listing request FindRoute53ResourceRecord sends: MaxItems "1",
seeded to start at the requested name and type. -/
def findRequest (zoneID name rrType : String) : ListResourceRecordSetsInput :=
  ⟨zoneID, "1", name, rrType⟩

/-- Embedding of awsClient.FindRoute53ResourceRecord: one listing call,
error when the listing errors or comes back empty, otherwise the first
returned entry is taken as the match and its record values returned. -/
def FindRoute53ResourceRecord (le : ListEndpoint) (zoneID name rrType : String) :
    Except String (List String) :=
  match le (findRequest zoneID name rrType) with
  | .error e => .error ("Error locating resource record: " ++ e)
  | .ok sets =>
      match sets with
      | [] => .error ("Resource record set " ++ name ++ " " ++ rrType ++ " not found")
      | s :: _ => .ok s.ResourceRecords

/-- instanceData without the Client and Batch fields, which are passed
explicitly to the functions that use them. -/
structure InstanceData where
  HostedZoneID : String
  InstanceID : String
  InstancePrivateIPAddress : String
  InstancePublicIPAddress : String
deriving DecidableEq, Repr

/-- Outcome of a Go computation: a value, a returned error value, or a
runtime fault (slice index out of range). -/
inductive GoResult (α : Type) where
  | ok (a : α)
  | err (e : String)
  | fault
deriving DecidableEq, Repr

/-- Record of one ExistingRDataValue call: the two index arguments, the
Name field of the targeted batch entry as it stood when the call indexed
into the batch (none when the guard tripped or the indexing faulted),
and the listing request issued (none when no request was made). -/
structure LookupEvent where
  target : Int
  rdataIdx : Int
  observed : Option TField
  req : Option ListResourceRecordSetsInput
deriving DecidableEq, Repr

/-- Go slice indexing with an Int index: some value in range, none for
the out-of-range access that panics at runtime. -/
def goIdx (l : List α) (i : Int) : Option α :=
  if 0 ≤ i then l.get? i.toNat else none

/-- Embedding of instanceData.ExistingRDataValue.  The source guards
with len(batch)-1 < rrSetIndex before indexing, and with
len(rData)-1 < rDataIndex before indexing the value list; an index that
passes the guard but is negative faults. -/
def ExistingRDataValue (le : ListEndpoint) (d : InstanceData) (batch : List Change)
    (rrSetIndex rDataIndex : Int) : GoResult String × LookupEvent :=
  if (batch.length : Int) - 1 < rrSetIndex then
    (.err ("Requested rrSet index of " ++ toString rrSetIndex ++ " out of range"),
     ⟨rrSetIndex, rDataIndex, none, none⟩)
  else
    match goIdx batch rrSetIndex with
    | none => (.fault, ⟨rrSetIndex, rDataIndex, none, none⟩)
    | some rrSet =>
        let nameF := rrSet.ResourceRecordSet.Name
        let ev : LookupEvent :=
          ⟨rrSetIndex, rDataIndex, some nameF,
           some (findRequest d.HostedZoneID nameF.srcText rrSet.ResourceRecordSet.rrType)⟩
        match FindRoute53ResourceRecord le d.HostedZoneID nameF.srcText
            rrSet.ResourceRecordSet.rrType with
        | .error e => (.err e, ev)
        | .ok rData =>
            if (rData.length : Int) - 1 < rDataIndex then
              (.err ("Requested rDataIndex index of " ++ toString rDataIndex ++
                " out of range"), ev)
            else
              match goIdx rData rDataIndex with
              | none => (.fault, ev)
              | some v => (.ok v, ev)

/-- Evaluation of one template item against the resolution context and
the current batch state. -/
def renderItem (le : ListEndpoint) (d : InstanceData) (batch : List Change) :
    TItem → GoResult String × List LookupEvent
  | .lit s => (.ok s, [])
  | .instanceID => (.ok d.InstanceID, [])
  | .privateIP => (.ok d.InstancePrivateIPAddress, [])
  | .publicIP => (.ok d.InstancePublicIPAddress, [])
  | .existing i j =>
      match ExistingRDataValue le d batch i j with
      | (r, ev) => (r, [ev])

/-- Left-to-right evaluation of a template item list, concatenating the
rendered text and short-circuiting on the first error or fault. -/
def renderItems (le : ListEndpoint) (d : InstanceData) (batch : List Change) :
    List TItem → GoResult String × List LookupEvent
  | [] => (.ok "", [])
  | it :: rest =>
      match renderItem le d batch it with
      | (.ok s, evs) =>
          match renderItems le d batch rest with
          | (.ok s2, evs2) => (.ok (s ++ s2), evs ++ evs2)
          | (.err e, evs2) => (.err e, evs ++ evs2)
          | (.fault, evs2) => (.fault, evs ++ evs2)
      | (.err e, evs) => (.err e, evs)
      | (.fault, evs) => (.fault, evs)

/-- Parse-then-execute of one template field: a malformed template
string is a parse error before any evaluation. -/
def renderTField (le : ListEndpoint) (d : InstanceData) (batch : List Change) :
    TField → GoResult String × List LookupEvent
  | .bad s => (.err ("template parse error: " ++ s), [])
  | .tmpl items => renderItems le d batch items

/-- Position of a template-bearing field inside one batch entry: the
record set name, or the value at index x of its record list. -/
inductive FPos where
  | name
  | value (x : Nat)
deriving DecidableEq, Repr

/-- Trace entry of WriteTemplateFields: a field at (entry n, pos) was
rendered and replaced, or an ExistingRDataValue lookup happened while
the field at (entry n, pos) was being rendered. -/
inductive TEvent where
  | renderOk (n : Nat) (pos : FPos)
  | lookup (n : Nat) (pos : FPos) (ev : LookupEvent)
deriving DecidableEq, Repr

/-- Replace the Name field of a batch entry. -/
def Change.withName (c : Change) (f : TField) : Change :=
  { c with ResourceRecordSet := { c.ResourceRecordSet with Name := f } }

/-- Replace the Value field of record x of a batch entry. -/
def Change.withValue (c : Change) (x : Nat) (f : TField) : Change :=
  { c with ResourceRecordSet := { c.ResourceRecordSet with
      ResourceRecords := c.ResourceRecordSet.ResourceRecords.set x ⟨f⟩ } }

/-- The inner loop of WriteTemplateFields: render the value templates
of entry n left to right (vals is the snapshot of the templates, x the
index of the next one), replacing each in the batch as soon as it is
rendered.  Any error aborts immediately. -/
def runValues (le : ListEndpoint) (d : InstanceData) (n : Nat) :
    List TField → Nat → List Change → GoResult Unit × List Change × List TEvent
  | [], _, batch => (.ok (), batch, [])
  | v :: rest, x, batch =>
      match renderTField le d batch v with
      | (.ok s, levs) =>
          let batch1 :=
            match batch.get? n with
            | some c => batch.set n (c.withValue x (.tmpl [.lit s]))
            | none => batch
          match runValues le d n rest (x+1) batch1 with
          | (res, b2, evs2) =>
              (res, b2,
               levs.map (TEvent.lookup n (.value x)) ++
                 TEvent.renderOk n (.value x) :: evs2)
      | (.err e, levs) => (.err e, batch, levs.map (TEvent.lookup n (.value x)))
      | (.fault, levs) => (.fault, batch, levs.map (TEvent.lookup n (.value x)))

/-- The outer loop of WriteTemplateFields: process entries n, n+1, ...
(r entries remain), rendering and replacing each entry Name first and
then its values, against the batch state as mutated so far. -/
def runBatch (le : ListEndpoint) (d : InstanceData) :
    Nat → Nat → List Change → GoResult Unit × List Change × List TEvent
  | _, 0, batch => (.ok (), batch, [])
  | n, r+1, batch =>
      match batch.get? n with
      | none => (.ok (), batch, [])
      | some rrSet =>
          match renderTField le d batch rrSet.ResourceRecordSet.Name with
          | (.ok s, levs) =>
              let batch1 := batch.set n (rrSet.withName (.tmpl [.lit s]))
              let vals := rrSet.ResourceRecordSet.ResourceRecords.map (·.Value)
              match runValues le d n vals 0 batch1 with
              | (.ok _, batch2, vevs) =>
                  match runBatch le d (n+1) r batch2 with
                  | (res, b3, evs3) =>
                      (res, b3,
                       levs.map (TEvent.lookup n .name) ++
                         TEvent.renderOk n .name :: (vevs ++ evs3))
              | (.err e, batch2, vevs) =>
                  (.err e, batch2,
                   levs.map (TEvent.lookup n .name) ++ TEvent.renderOk n .name :: vevs)
              | (.fault, batch2, vevs) =>
                  (.fault, batch2,
                   levs.map (TEvent.lookup n .name) ++ TEvent.renderOk n .name :: vevs)
          | (.err e, levs) => (.err e, batch, levs.map (TEvent.lookup n .name))
          | (.fault, levs) => (.fault, batch, levs.map (TEvent.lookup n .name))

/-- Embedding of instanceData.WriteTemplateFields: iterate over the
whole batch in index order, mutating it in place; returns the outcome,
the final batch state and the event trace. -/
def WriteTemplateFields (le : ListEndpoint) (d : InstanceData) (batch : List Change) :
    GoResult Unit × List Change × List TEvent :=
  runBatch le d 0 batch.length batch

/-- ec2.Instance, keeping the three attributes the program reads.  The
address fields are pointers in the source, hence Option here. -/
structure EC2Instance where
  InstanceId : Option String
  PrivateIpAddress : Option String
  PublicIpAddress : Option String
deriving DecidableEq, Repr

/-- ec2 Reservation: its instance list. -/
structure Reservation where
  Instances : List EC2Instance
deriving DecidableEq, Repr

/-- The EC2 DescribeInstances collaborator: reservations (or a
transport error) for an instance-id filter list. -/
abbrev EC2Endpoint := List String → Except String (List Reservation)

/-- Embedding of awsClient.FetchEC2InstanceData: one DescribeInstances
call with a singleton id filter; not-found when the response has no
reservation or the first reservation has no instance; otherwise the
first instance of the first reservation. -/
def FetchEC2InstanceData (ec2 : EC2Endpoint) (instanceID : String) :
    Except String EC2Instance :=
  match ec2 [instanceID] with
  | .error e => .error ("Error fetching instance data: " ++ e)
  | .ok reservations =>
      match reservations with
      | [] => .error ("Cannot find instance ID " ++ instanceID)
      | r :: _ =>
          match r.Instances with
          | [] => .error ("Cannot find instance ID " ++ instanceID)
          | inst :: _ => .ok inst

/-- Events of one handler invocation: the collaborator calls it makes
besides JSON decoding. -/
inductive HEvent where
  | describeInstances (ids : List String)
  | listRRS (req : ListResourceRecordSetsInput)
  | submit (zoneID : String) (batch : List Change)
  | complete (result : String)
deriving DecidableEq, Repr

/-- Embedding of populate: fetch the instance attributes and build the
resolution context.  Each address field starts at the empty string and
is assigned only when the attribute is non-null and non-empty. -/
def populate (ec2 : EC2Endpoint) (instanceID hostedZoneID : String) :
    Except String InstanceData × List HEvent :=
  (match FetchEC2InstanceData ec2 instanceID with
   | .error e => .error e
   | .ok inst =>
       .ok { HostedZoneID := hostedZoneID
             InstanceID := instanceID
             InstancePrivateIPAddress :=
               match inst.PrivateIpAddress with
               | some s => if s = "" then "" else s
               | none => ""
             InstancePublicIPAddress :=
               match inst.PublicIpAddress with
               | some s => if s = "" then "" else s
               | none => "" },
   [HEvent.describeInstances [instanceID]])

/-- snsEvent: the message string of one SNS record. -/
structure SnsEvent where
  Message : String
deriving DecidableEq, Repr

/-- eventRecord: one record of the Lambda event envelope. -/
structure EventRecord where
  Sns : SnsEvent
deriving DecidableEq, Repr

/-- eventNotification: the Lambda event envelope. -/
structure EventNotification where
  Records : List EventRecord
deriving DecidableEq, Repr

/-- snsMessage: the decoded lifecycle message. -/
structure SnsMessage where
  Event : String
  EC2InstanceID : String
  AutoScalingGroupName : String
  LifecycleHookName : String
  LifecycleActionToken : String
  NotificationMetadata : String
deriving DecidableEq, Repr

/-- messageArgs: the decoded notification metadata. -/
structure MessageArgs where
  HostedZoneID : String
  Changes : List Change
deriving DecidableEq, Repr

/-- The external world of one invocation: the three JSON decoders (JSON
decoding is an external collaborator), AWS client construction, and the
four AWS service endpoints.  getChange is indexed by poll attempt so a
response may vary over time. -/
structure Env where
  parseOuterJSON : String → Except String EventNotification
  parseInnerJSON : String → Except String SnsMessage
  parseMetaJSON : String → Except String MessageArgs
  newClient : Except String Unit
  ec2 : EC2Endpoint
  listRRS : ListEndpoint
  changeRRS : String → List Change → Except String String
  getChange : String → Nat → Except String String

/-- Embedding of parseFullEvent: outer envelope, first record check,
inner message, early return with empty metadata on a test notification,
otherwise the decoded metadata. -/
def parseFullEvent (env : Env) (raw : String) :
    Except String (SnsMessage × MessageArgs) :=
  match env.parseOuterJSON raw with
  | .error e => .error e
  | .ok parsedEvent =>
      match parsedEvent.Records with
      | [] => .error "Parsed event contains no records"
      | record :: _ =>
          match env.parseInnerJSON record.Sns.Message with
          | .error e => .error e
          | .ok parsedMessage =>
              if parsedMessage.Event = "autoscaling:TEST_NOTIFICATION" then
                .ok (parsedMessage, ⟨"", []⟩)
              else
                match env.parseMetaJSON parsedMessage.NotificationMetadata with
                | .error e => .error e
                | .ok parsedMetadata => .ok (parsedMessage, parsedMetadata)

/-- States of the propagation-confirmation machine. -/
inductive WaitState where
  | PENDING
  | INSYNC
  | TIMED_OUT
deriving DecidableEq, Repr

/-- Modelled from the spec: the effect of one poll response on the
machine.  The poll loop itself (waiter.Wait of the AWS SDK private
waiter package) is a dependency whose source is not in this repository;
per the spec, reaching the expected status transitions to INSYNC, any
other status keeps the machine PENDING, and a transport error is
transient and does not itself transition state. -/
def waiterStep (expected : String) (resp : Except String String) : WaitState :=
  match resp with
  | .ok status => if status = expected then .INSYNC else .PENDING
  | .error _ => .PENDING

/-- Modelled from the spec: the bounded poll loop (waiter.Wait, source
not in this repository).  It polls once per tick at the fixed interval
delay, starting at time t with the given attempt budget as fuel;
returns the terminal state and the times at which polls happened.
Exhausting fuel without INSYNC is TIMED_OUT. -/
def waiterRun (poll : Nat → Except String String) (expected : String) (delay : Nat) :
    Nat → Nat → Nat → WaitState × List Nat
  | 0, _, _ => (.TIMED_OUT, [])
  | fuel+1, attempt, t =>
      match waiterStep expected (poll attempt) with
      | .INSYNC => (.INSYNC, [t])
      | _ =>
          match waiterRun poll expected delay fuel (attempt+1) (t+delay) with
          | (st, ts) => (st, t :: ts)

/-- Embedding of awsClient.WaitForRoute53Sync: the waiter configured
with Delay 5, MaxAttempts 24 and acceptor ChangeInfo.Status = INSYNC,
run from attempt 0 at time 0. -/
def WaitForRoute53Sync (poll : Nat → Except String String) : WaitState × List Nat :=
  waiterRun poll "INSYNC" 5 24 0 0

/-- The error value the wait returns to its caller: success exactly on
INSYNC. -/
def waitResult (w : WaitState) : Except String Unit :=
  match w with
  | .INSYNC => .ok ()
  | _ => .error "exceeded 24 wait attempts"

/-- Embedding of awsClient.SendRoute53ChangeBatch: one
ChangeResourceRecordSets call; on acceptance, wait for the returned
change id to sync. -/
def SendRoute53ChangeBatch (env : Env) (zoneID : String) (batch : List Change) :
    Except String Unit × List HEvent :=
  match env.changeRRS zoneID batch with
  | .error e =>
      (.error ("Error sending change batch: " ++ e), [HEvent.submit zoneID batch])
  | .ok changeID =>
      (waitResult (WaitForRoute53Sync (env.getChange changeID)).1,
       [HEvent.submit zoneID batch])

/-- The collaborator calls implied by one WriteTemplateFields trace
entry: each lookup that reached Route 53 is one listing call. -/
def tevToH (t : TEvent) : List HEvent :=
  match t with
  | .renderOk _ _ => []
  | .lookup _ _ ev =>
      match ev.req with
      | some r => [HEvent.listRRS r]
      | none => []

/-- Embedding of handle: decode, build the client, drop test
notifications, resolve instance attributes, render the batch in place,
submit and wait, and send the lifecycle outcome.  Failures before
submission return the error; failures at or after submission send
ABANDON and return no error; success sends CONTINUE. -/
def handle (env : Env) (raw : String) : GoResult Unit × List HEvent :=
  match parseFullEvent env raw with
  | .error e => (.err e, [])
  | .ok (message, args) =>
      match env.newClient with
      | .error e => (.err e, [])
      | .ok _ =>
          if message.Event = "autoscaling:TEST_NOTIFICATION" then (.ok (), [])
          else
            match populate env.ec2 message.EC2InstanceID args.HostedZoneID with
            | (.error e, pevs) => (.err e, pevs)
            | (.ok d, pevs) =>
                match WriteTemplateFields env.listRRS d args.Changes with
                | (.err e, _, tevs) => (.err e, pevs ++ tevs.flatMap tevToH)
                | (.fault, _, tevs) => (.fault, pevs ++ tevs.flatMap tevToH)
                | (.ok _, batch1, tevs) =>
                    match SendRoute53ChangeBatch env args.HostedZoneID batch1 with
                    | (.error _, sevs) =>
                        (.ok (),
                         pevs ++ tevs.flatMap tevToH ++ sevs ++ [HEvent.complete "ABANDON"])
                    | (.ok _, sevs) =>
                        (.ok (),
                         pevs ++ tevs.flatMap tevToH ++ sevs ++ [HEvent.complete "CONTINUE"])

/-- The lifecycle outcome signals appearing in a trace. -/
def signals (ts : List HEvent) : List String :=
  ts.filterMap fun t =>
    match t with
    | HEvent.complete r => some r
    | _ => none

/-- The change-batch submissions appearing in a trace. -/
def submits (ts : List HEvent) : List (String × List Change) :=
  ts.filterMap fun t =>
    match t with
    | HEvent.submit z b => some (z, b)
    | _ => none

/-- The positions rendered so far, in trace order. -/
def rendersOf (ts : List TEvent) : List (Nat × FPos) :=
  ts.filterMap fun t =>
    match t with
    | TEvent.renderOk n p => some (n, p)
    | _ => none

/-- The Name field of batch entry n, when the entry exists. -/
def nameAt (batch : List Change) (n : Nat) : Option TField :=
  (batch.get? n).map fun c => c.ResourceRecordSet.Name

/-- The Value field of record x of batch entry n, when both exist. -/
def valueAt (batch : List Change) (n x : Nat) : Option TField :=
  (batch.get? n).bind fun c =>
    (c.ResourceRecordSet.ResourceRecords.get? x).map (·.Value)

/-- The template-bearing field at a position of the batch. -/
def fieldAt (batch : List Change) (n : Nat) : FPos → Option TField
  | .name => nameAt batch n
  | .value x => valueAt batch n x

/-- An optional field that is present and a rendered literal. -/
def optLit (o : Option TField) : Bool :=
  match o with
  | some f => f.isLit
  | none => false

/-- The record count of batch entry n, when the entry exists. -/
def recLen (batch : List Change) (n : Nat) : Option Nat :=
  (batch.get? n).map fun c => c.ResourceRecordSet.ResourceRecords.length

/-- The rendering order of one entry with the given record count: the
name field first, then the values in index order. -/
def entrySchedule (n len : Nat) : List (Nat × FPos) :=
  (n, FPos.name) :: (List.range len).map fun x => (n, FPos.value x)

/-- The rendering order of entries n, n+1, ... (r entries) of the
batch. -/
def schedFrom (batch : List Change) : Nat → Nat → List (Nat × FPos)
  | _, 0 => []
  | n, r+1 =>
      match batch.get? n with
      | none => []
      | some c =>
          entrySchedule n c.ResourceRecordSet.ResourceRecords.length ++
            schedFrom batch (n+1) r

/-- The full rendering order of a batch. -/
def schedule (batch : List Change) : List (Nat × FPos) :=
  schedFrom batch 0 batch.length

/-- Every template-bearing field of the batch is a rendered literal. -/
def batchLit (batch : List Change) : Bool :=
  batch.all fun c =>
    c.ResourceRecordSet.Name.isLit &&
      c.ResourceRecordSet.ResourceRecords.all (·.Value.isLit)

/-- A listing endpoint whose first entry names a record other than any
requested one: Route 53 seeds the listing lexicographically, so a
missing record yields its successor. -/
def cexListEndpoint : ListEndpoint :=
  fun _ => .ok [⟨"b.example.com.", "A", ["1.2.3.4"]⟩]

/-- The EC2 collaborator of scenario A. -/
def scenEC2 : EC2Endpoint := fun ids =>
  if ids = ["i-123456789"] then
    .ok [⟨[⟨some "i-123456789", some "10.0.0.1", some "54.0.0.1"⟩]⟩]
  else .error "not found"

/-- The resolution context scenario A populates. -/
def scenData : InstanceData :=
  ⟨"ABCDEF0123456789", "i-123456789", "10.0.0.1", "54.0.0.1"⟩

/-- The change batch of scenario A. -/
def scenBatch : List Change :=
  [⟨"UPSERT", ⟨.tmpl [.instanceID, .lit ".example.com."], 3600, "A",
     [⟨.tmpl [.publicIP]⟩]⟩⟩,
   ⟨"UPSERT", ⟨.tmpl [.lit "www.example.com."], 3600, "CNAME",
     [⟨.tmpl [.instanceID, .lit ".example.com."]⟩]⟩⟩]

/-- A listing endpoint no template of scenario A consults. -/
def scenLE : ListEndpoint := fun _ => .error "unused"

/-- An EC2 collaborator whose instance has no public address. -/
def noPubEC2 : EC2Endpoint :=
  fun _ => .ok [⟨[⟨some "i-1", some "10.0.0.1", none⟩]⟩]

/-- The context populated from `noPubEC2`. -/
def noPubData : InstanceData := ⟨"Z1", "i-1", "10.0.0.1", ""⟩

/-- A one-entry batch for exercising index bounds. -/
def negBatch : List Change :=
  [⟨"UPSERT", ⟨.tmpl [.lit "n.example.com."], 300, "A", [⟨.tmpl [.lit "v"]⟩]⟩⟩]

/-- A listing endpoint answering every request with one record value. -/
def negLE : ListEndpoint := fun _ => .ok [⟨"n.example.com.", "A", ["1.2.3.4"]⟩]

/-- A plain context for index-bound runs. -/
def negD : InstanceData := ⟨"Z1", "i-1", "10.0.0.1", "54.0.0.1"⟩

/-- A batch whose first name template looks up the first entry from
within its own name field. -/
def selfBatch : List Change :=
  [⟨"UPSERT", ⟨.tmpl [.existing 0 0], 300, "A", [⟨.tmpl [.lit "v"]⟩]⟩⟩]

/-- A batch whose second entry has a malformed name template, so
rendering fails after the first entry was already replaced. -/
def partialBatch : List Change :=
  [⟨"UPSERT", ⟨.tmpl [.instanceID, .lit ".example.com."], 300, "A",
     [⟨.tmpl [.publicIP]⟩]⟩⟩,
   ⟨"UPSERT", ⟨.bad "\x7b\x7b.", 300, "A", [⟨.tmpl [.lit "v"]⟩]⟩⟩]

/-- Poll responses that stay pending forever. -/
def pollPending : Nat → Except String String := fun _ => .ok "PENDING"

/-- Poll responses that report INSYNC from the third attempt on. -/
def pollSync2 : Nat → Except String String :=
  fun k => if k < 2 then .ok "PENDING" else .ok "INSYNC"

/-- Poll responses that always fail with a transport error. -/
def pollErr : Nat → Except String String := fun _ => .error "transport error"

/-- The inner message of a test notification. -/
def testMsg : SnsMessage := ⟨"autoscaling:TEST_NOTIFICATION", "", "", "", "", ""⟩

/-- The inner message of a live lifecycle event. -/
def liveMsg : SnsMessage :=
  ⟨"autoscaling:EC2_INSTANCE_LAUNCHING", "i-123456789", "ASGName", "Lifecycle",
   "Token", "meta"⟩

/-- The decoded metadata of the live event: the scenario-A batch. -/
def liveArgs : MessageArgs := ⟨"ABCDEF0123456789", scenBatch⟩

/-- An environment delivering the given message and metadata, with the
scenario EC2 collaborator and the given mutation endpoints. -/
def envOf (msg : SnsMessage) (args : MessageArgs)
    (change : String → List Change → Except String String)
    (getChg : String → Nat → Except String String) : Env :=
  { parseOuterJSON := fun _ => .ok ⟨[⟨⟨"inner"⟩⟩]⟩
    parseInnerJSON := fun _ => .ok msg
    parseMetaJSON := fun _ => .ok args
    newClient := .ok ()
    ec2 := scenEC2
    listRRS := scenLE
    changeRRS := change
    getChange := getChg }

/-- An environment whose submission endpoint rejects every batch. -/
def envAbandon : Env :=
  envOf liveMsg liveArgs (fun _ _ => .error "SubmitError") (fun _ _ => .ok "INSYNC")

/-- An environment where submission is accepted and the change syncs on
the first poll. -/
def envContinue : Env :=
  envOf liveMsg liveArgs (fun _ _ => .ok "CHANGE123435") (fun _ _ => .ok "INSYNC")

/-- An environment delivering a test notification. -/
def envTest : Env :=
  envOf testMsg ⟨"", []⟩ (fun _ _ => .error "no") (fun _ _ => .error "no")

/-- The scenario-A batch after rendering. -/
def renderedScenBatch : List Change :=
  [⟨"UPSERT", ⟨.tmpl [.lit "i-123456789.example.com."], 3600, "A",
     [⟨.tmpl [.lit "54.0.0.1"]⟩]⟩⟩,
   ⟨"UPSERT", ⟨.tmpl [.lit "www.example.com."], 3600, "CNAME",
     [⟨.tmpl [.lit "i-123456789.example.com."]⟩]⟩⟩]

/-- The event trace of rendering the scenario-A batch. -/
def scenTrace : List TEvent :=
  [TEvent.renderOk 0 .name, TEvent.renderOk 0 (.value 0),
   TEvent.renderOk 1 .name, TEvent.renderOk 1 (.value 0)]

/-! ### Helper lemmas -/

theorem waiterStep_ne_insync (resp : Except String String)
    (h : resp ≠ .ok "INSYNC") : waiterStep "INSYNC" resp ≠ .INSYNC := by
  cases resp with
  | error e => simp [waiterStep]
  | ok s =>
      simp only [waiterStep]
      by_cases hs : s = "INSYNC"
      · exact absurd (by rw [hs]) h
      · simp [hs]

theorem submits_append (a b : List HEvent) :
    submits (a ++ b) = submits a ++ submits b := by
  simp [submits, List.filterMap_append]

theorem signals_append (a b : List HEvent) :
    signals (a ++ b) = signals a ++ signals b := by
  simp [signals, List.filterMap_append]

theorem submits_tevToH_single (t : TEvent) : submits (tevToH t) = [] := by
  cases t with
  | renderOk n p => rfl
  | lookup n p ev =>
      rcases ev with ⟨tg, rd, ob, req⟩
      cases req <;> rfl

theorem signals_tevToH_single (t : TEvent) : signals (tevToH t) = [] := by
  cases t with
  | renderOk n p => rfl
  | lookup n p ev =>
      rcases ev with ⟨tg, rd, ob, req⟩
      cases req <;> rfl

theorem submits_tevToH (ts : List TEvent) : submits (ts.flatMap tevToH) = [] := by
  induction ts with
  | nil => rfl
  | cons t rest ih =>
      rw [List.flatMap_cons, submits_append, submits_tevToH_single t, ih]
      rfl

theorem signals_tevToH (ts : List TEvent) : signals (ts.flatMap tevToH) = [] := by
  induction ts with
  | nil => rfl
  | cons t rest ih =>
      rw [List.flatMap_cons, signals_append, signals_tevToH_single t, ih]
      rfl

theorem populate_events (ec2 : EC2Endpoint) (iid zid : String) :
    (populate ec2 iid zid).2 = [HEvent.describeInstances [iid]] := rfl

theorem send_events (env : Env) (zoneID : String) (batch : List Change) :
    (SendRoute53ChangeBatch env zoneID batch).2 = [HEvent.submit zoneID batch] := by
  unfold SendRoute53ChangeBatch
  cases h : env.changeRRS zoneID batch <;> simp

theorem waiterRun_times (poll : Nat → Except String String) (expected : String)
    (delay : Nat) (fuel : Nat) :
    ∀ attempt t,
      (waiterRun poll expected delay fuel attempt t).2 =
        (List.range (waiterRun poll expected delay fuel attempt t).2.length).map
          (fun k => t + delay * k) := by
  induction fuel with
  | zero => intro attempt t; simp [waiterRun]
  | succ f ih =>
      intro attempt t
      simp only [waiterRun]
      cases hs : waiterStep expected (poll attempt) with
      | INSYNC =>
          rw [List.length_singleton, List.range_succ, List.range_zero]
          simp
      | PENDING =>
          cases hw : waiterRun poll expected delay f (attempt+1) (t+delay) with
          | mk st ts =>
              have h2 := ih (attempt+1) (t+delay)
              rw [hw] at h2
              simp only at h2 ⊢
              rw [List.length_cons, List.range_succ_eq_map, List.map_cons,
                List.map_map]
              have hfe : ((fun k => t + delay * k) ∘ Nat.succ) =
                  fun k => (t + delay) + delay * k := by
                funext k
                simp only [Function.comp, Nat.mul_succ]
                ring
              rw [hfe, ← h2, Nat.mul_zero, Nat.add_zero]
      | TIMED_OUT =>
          cases hw : waiterRun poll expected delay f (attempt+1) (t+delay) with
          | mk st ts =>
              have h2 := ih (attempt+1) (t+delay)
              rw [hw] at h2
              simp only at h2 ⊢
              rw [List.length_cons, List.range_succ_eq_map, List.map_cons,
                List.map_map]
              have hfe : ((fun k => t + delay * k) ∘ Nat.succ) =
                  fun k => (t + delay) + delay * k := by
                funext k
                simp only [Function.comp, Nat.mul_succ]
                ring
              rw [hfe, ← h2, Nat.mul_zero, Nat.add_zero]

theorem waiterRun_timeout (poll : Nat → Except String String) (expected : String)
    (delay : Nat) (fuel : Nat) :
    ∀ attempt t,
      (∀ k, attempt ≤ k → k < attempt + fuel →
          waiterStep expected (poll k) ≠ .INSYNC) →
      (waiterRun poll expected delay fuel attempt t).1 = .TIMED_OUT ∧
      (waiterRun poll expected delay fuel attempt t).2.length = fuel := by
  induction fuel with
  | zero => intro attempt t _; simp [waiterRun]
  | succ f ih =>
      intro attempt t h
      have hstep : waiterStep expected (poll attempt) ≠ .INSYNC :=
        h attempt (Nat.le_refl _) (by omega)
      simp only [waiterRun]
      cases hs : waiterStep expected (poll attempt) with
      | INSYNC => exact absurd hs hstep
      | PENDING =>
          have h2 := ih (attempt+1) (t+delay)
            (fun k hk1 hk2 => h k (by omega) (by omega))
          cases hw : waiterRun poll expected delay f (attempt+1) (t+delay) with
          | mk st ts =>
              rw [hw] at h2
              simpa using h2
      | TIMED_OUT =>
          have h2 := ih (attempt+1) (t+delay)
            (fun k hk1 hk2 => h k (by omega) (by omega))
          cases hw : waiterRun poll expected delay f (attempt+1) (t+delay) with
          | mk st ts =>
              rw [hw] at h2
              simpa using h2

theorem waiterRun_firstSync (poll : Nat → Except String String) (expected : String)
    (delay : Nat) (i : Nat) :
    ∀ fuel attempt t,
      i < fuel →
      (∀ k, attempt ≤ k → k < attempt + i →
          waiterStep expected (poll k) ≠ .INSYNC) →
      waiterStep expected (poll (attempt + i)) = .INSYNC →
      (waiterRun poll expected delay fuel attempt t).1 = .INSYNC ∧
      (waiterRun poll expected delay fuel attempt t).2.length = i + 1 := by
  induction i with
  | zero =>
      intro fuel attempt t hfuel hpre hsync
      cases fuel with
      | zero => omega
      | succ f =>
          rw [Nat.add_zero] at hsync
          simp only [waiterRun, hsync]
          simp
  | succ i2 ih =>
      intro fuel attempt t hfuel hpre hsync
      cases fuel with
      | zero => omega
      | succ f =>
          have hstep : waiterStep expected (poll attempt) ≠ .INSYNC :=
            hpre attempt (Nat.le_refl _) (by omega)
          simp only [waiterRun]
          cases hs : waiterStep expected (poll attempt) with
          | INSYNC => exact absurd hs hstep
          | PENDING =>
              have h2 := ih f (attempt+1) (t+delay) (by omega)
                (fun k hk1 hk2 => hpre k (by omega) (by omega))
                (by rw [show attempt + 1 + i2 = attempt + (i2+1) by omega]
                    exact hsync)
              cases hw : waiterRun poll expected delay f (attempt+1) (t+delay) with
              | mk st ts =>
                  rw [hw] at h2
                  simpa using h2
          | TIMED_OUT =>
              have h2 := ih f (attempt+1) (t+delay) (by omega)
                (fun k hk1 hk2 => hpre k (by omega) (by omega))
                (by rw [show attempt + 1 + i2 = attempt + (i2+1) by omega]
                    exact hsync)
              cases hw : waiterRun poll expected delay f (attempt+1) (t+delay) with
              | mk st ts =>
                  rw [hw] at h2
                  simpa using h2

theorem get?_set_self {α : Type} (l : List α) (n : Nat) (a : α) (h : n < l.length) :
    (l.set n a).get? n = some a := by
  induction l generalizing n with
  | nil => simp at h
  | cons b t ih =>
      cases n with
      | zero => rfl
      | succ m => exact ih m (by simpa using h)

theorem get?_set_other {α : Type} (l : List α) (n m : Nat) (a : α) (h : m ≠ n) :
    (l.set n a).get? m = l.get? m := by
  induction l generalizing n m with
  | nil => rfl
  | cons b t ih =>
      cases n with
      | zero =>
          cases m with
          | zero => exact absurd rfl h
          | succ m2 => rfl
      | succ n2 =>
          cases m with
          | zero => rfl
          | succ m2 => exact ih n2 m2 (by omega)

theorem get?_some_lt {α : Type} (l : List α) (n : Nat) (a : α)
    (h : l.get? n = some a) : n < l.length := by
  induction l generalizing n with
  | nil => simp [List.get?] at h
  | cons b t ih =>
      cases n with
      | zero => simp
      | succ m =>
          have := ih m h
          simpa using Nat.succ_lt_succ this

theorem lt_get?_some {α : Type} (l : List α) (n : Nat) (h : n < l.length) :
    ∃ a, l.get? n = some a := by
  induction l generalizing n with
  | nil => simp at h
  | cons b t ih =>
      cases n with
      | zero => exact ⟨b, rfl⟩
      | succ m => exact ih m (by simpa using h)

theorem rendersOf_append (a b : List TEvent) :
    rendersOf (a ++ b) = rendersOf a ++ rendersOf b := by
  simp [rendersOf, List.filterMap_append]

theorem rendersOf_lookupMap (n : Nat) (p : FPos) (levs : List LookupEvent) :
    rendersOf (levs.map (TEvent.lookup n p)) = [] := by
  induction levs with
  | nil => rfl
  | cons a rest ih => simp [rendersOf]

theorem rendersOf_cons_renderOk (n : Nat) (p : FPos) (ts : List TEvent) :
    rendersOf (TEvent.renderOk n p :: ts) = (n, p) :: rendersOf ts := by
  simp [rendersOf]

theorem mem_rendersOf (q : Nat) (p : FPos) (ts : List TEvent) :
    (q, p) ∈ rendersOf ts ↔ TEvent.renderOk q p ∈ ts := by
  induction ts with
  | nil => simp [rendersOf]
  | cons t rest ih =>
      cases t with
      | renderOk n2 p2 =>
          simp only [rendersOf, List.filterMap_cons] at ih ⊢
          simp only [List.mem_cons, ih.symm]
          constructor
          · rintro (h | h)
            · left
              rw [Prod.mk.injEq] at h
              rw [h.1, h.2]
            · right; exact h
          · rintro (h | h)
            · left
              injection h with h1 h2
              rw [h1, h2]
            · right; exact h
      | lookup n2 p2 ev =>
          simp only [rendersOf, List.filterMap_cons] at ih ⊢
          simp only [List.mem_cons, ih.symm]
          constructor
          · intro h; right; exact h
          · rintro (h | h)
            · exact absurd h (by intro hh; exact TEvent.noConfusion hh)
            · exact h

theorem renderOk_not_mem_lookupMap (n : Nat) (p : FPos) (levs : List LookupEvent)
    (q : Nat) (pp : FPos) :
    TEvent.renderOk q pp ∉ levs.map (TEvent.lookup n p) := by
  intro h
  rw [List.mem_map] at h
  obtain ⟨a, _, heq⟩ := h
  exact TEvent.noConfusion heq

theorem lookup_mem_map (n : Nat) (p : FPos) (levs : List LookupEvent)
    (j : Nat) (pos : FPos) (lev : LookupEvent)
    (h : TEvent.lookup j pos lev ∈ levs.map (TEvent.lookup n p)) :
    j = n ∧ pos = p ∧ lev ∈ levs := by
  rw [List.mem_map] at h
  obtain ⟨a, ha, heq⟩ := h
  injection heq with h1 h2 h3
  exact ⟨h1.symm, h2.symm, h3 ▸ ha⟩

theorem nameAt_setName_eq (batch : List Change) (n : Nat) (c : Change) (f : TField)
    (hc : batch.get? n = some c) :
    nameAt (batch.set n (c.withName f)) n = some f := by
  rw [nameAt, get?_set_self batch n _ (get?_some_lt batch n c hc)]
  rfl

theorem nameAt_setName_ne (batch : List Change) (n : Nat) (c : Change) (f : TField)
    (m : Nat) (h : m ≠ n) :
    nameAt (batch.set n (c.withName f)) m = nameAt batch m := by
  rw [nameAt, nameAt, get?_set_other batch n m _ h]

theorem valueAt_setName (batch : List Change) (n : Nat) (c : Change) (f : TField)
    (hc : batch.get? n = some c) (q y : Nat) :
    valueAt (batch.set n (c.withName f)) q y = valueAt batch q y := by
  by_cases h : q = n
  · subst h
    rw [valueAt, valueAt, get?_set_self batch q _ (get?_some_lt batch q c hc), hc]
    rfl
  · rw [valueAt, valueAt, get?_set_other batch n q _ h]

theorem recLen_setName (batch : List Change) (n : Nat) (c : Change) (f : TField)
    (hc : batch.get? n = some c) (q : Nat) :
    recLen (batch.set n (c.withName f)) q = recLen batch q := by
  by_cases h : q = n
  · subst h
    rw [recLen, recLen, get?_set_self batch q _ (get?_some_lt batch q c hc), hc]
    rfl
  · rw [recLen, recLen, get?_set_other batch n q _ h]

theorem nameAt_setValue (batch : List Change) (n : Nat) (c : Change) (x : Nat)
    (f : TField) (hc : batch.get? n = some c) (m : Nat) :
    nameAt (batch.set n (c.withValue x f)) m = nameAt batch m := by
  by_cases h : m = n
  · subst h
    rw [nameAt, nameAt, get?_set_self batch m _ (get?_some_lt batch m c hc), hc]
    rfl
  · rw [nameAt, nameAt, get?_set_other batch n m _ h]

theorem recLen_setValue (batch : List Change) (n : Nat) (c : Change) (x : Nat)
    (f : TField) (hc : batch.get? n = some c) (q : Nat) :
    recLen (batch.set n (c.withValue x f)) q = recLen batch q := by
  by_cases h : q = n
  · subst h
    rw [recLen, recLen, get?_set_self batch q _ (get?_some_lt batch q c hc), hc]
    simp [Change.withValue]
  · rw [recLen, recLen, get?_set_other batch n q _ h]

theorem valueAt_setValue_ne (batch : List Change) (n : Nat) (c : Change) (x : Nat)
    (f : TField) (hc : batch.get? n = some c) (q y : Nat)
    (h : q ≠ n ∨ y ≠ x) :
    valueAt (batch.set n (c.withValue x f)) q y = valueAt batch q y := by
  by_cases hq : q = n
  · subst hq
    have hy : y ≠ x := by
      rcases h with h | h
      · exact absurd rfl h
      · exact h
    rw [valueAt, valueAt, get?_set_self batch q _ (get?_some_lt batch q c hc), hc]
    simp only [Change.withValue, Option.some_bind]
    rw [get?_set_other _ x y _ hy]
  · rw [valueAt, valueAt, get?_set_other batch n q _ hq]

theorem valueAt_setValue_eq (batch : List Change) (n : Nat) (c : Change) (x : Nat)
    (f : TField) (hc : batch.get? n = some c)
    (hx : x < c.ResourceRecordSet.ResourceRecords.length) :
    valueAt (batch.set n (c.withValue x f)) n x = some f := by
  rw [valueAt, get?_set_self batch n _ (get?_some_lt batch n c hc)]
  simp only [Change.withValue, Option.some_bind]
  rw [get?_set_self _ x _ hx]
  rfl

theorem ExistingRDataValue_event (le : ListEndpoint) (d : InstanceData)
    (batch : List Change) (i j : Int) :
    ((batch.length : Int) - 1 < i →
        (ExistingRDataValue le d batch i j).2 = ⟨i, j, none, none⟩) ∧
    (¬((batch.length : Int) - 1 < i) → goIdx batch i = none →
        (ExistingRDataValue le d batch i j).2 = ⟨i, j, none, none⟩) ∧
    (∀ rrSet, ¬((batch.length : Int) - 1 < i) → goIdx batch i = some rrSet →
        (ExistingRDataValue le d batch i j).2 =
          ⟨i, j, some rrSet.ResourceRecordSet.Name,
           some (findRequest d.HostedZoneID rrSet.ResourceRecordSet.Name.srcText
             rrSet.ResourceRecordSet.rrType)⟩) := by
  refine ⟨?_, ?_, ?_⟩
  · intro hg
    simp [ExistingRDataValue, hg]
  · intro hg hgo
    simp [ExistingRDataValue, hg, hgo]
  · intro rrSet hg hgo
    simp only [ExistingRDataValue, if_neg hg, hgo]
    cases hf : FindRoute53ResourceRecord le d.HostedZoneID
        rrSet.ResourceRecordSet.Name.srcText rrSet.ResourceRecordSet.rrType with
    | error e => rfl
    | ok rData =>
        by_cases hg2 : (rData.length : Int) - 1 < j
        · simp [hg2]
        · simp only [if_neg hg2]
          cases goIdx rData j <;> rfl

theorem renderItem_observed (le : ListEndpoint) (d : InstanceData) (b : List Change)
    (it : TItem) :
    ∀ lev ∈ (renderItem le d b it).2, ∀ g, lev.observed = some g →
      ∃ (i : Nat) (c : Change), lev.target = (i : Int) ∧ b.get? i = some c ∧
        g = c.ResourceRecordSet.Name := by
  intro lev hmem g hobs
  cases it with
  | lit s => simp [renderItem] at hmem
  | instanceID => simp [renderItem] at hmem
  | privateIP => simp [renderItem] at hmem
  | publicIP => simp [renderItem] at hmem
  | existing i j =>
      have hlev : lev = (ExistingRDataValue le d b i j).2 := by
        rcases hE : ExistingRDataValue le d b i j with ⟨r, ev⟩
        simp only [renderItem, hE, List.mem_singleton] at hmem
        simp [hmem, hE]
      by_cases hg : (b.length : Int) - 1 < i
      · rw [hlev, (ExistingRDataValue_event le d b i j).1 hg] at hobs
        exact Option.noConfusion hobs
      · cases hgo : goIdx b i with
        | none =>
            rw [hlev, (ExistingRDataValue_event le d b i j).2.1 hg hgo] at hobs
            exact Option.noConfusion hobs
        | some rrSet =>
            have h0 : 0 ≤ i := by
              by_contra hneg
              rw [goIdx, if_neg hneg] at hgo
              exact Option.noConfusion hgo
            rw [hlev, (ExistingRDataValue_event le d b i j).2.2 rrSet hg hgo] at hobs
            refine ⟨i.toNat, rrSet, ?_, ?_, ?_⟩
            · rw [hlev, (ExistingRDataValue_event le d b i j).2.2 rrSet hg hgo]
              exact (Int.toNat_of_nonneg h0).symm
            · rw [goIdx, if_pos h0] at hgo
              exact hgo
            · exact (Option.some.inj hobs).symm

theorem renderItems_observed (le : ListEndpoint) (d : InstanceData) (b : List Change)
    (items : List TItem) :
    ∀ lev ∈ (renderItems le d b items).2, ∀ g, lev.observed = some g →
      ∃ (i : Nat) (c : Change), lev.target = (i : Int) ∧ b.get? i = some c ∧
        g = c.ResourceRecordSet.Name := by
  induction items with
  | nil => intro lev h; simp [renderItems] at h
  | cons it rest ih =>
      intro lev hmem g hobs
      rcases h1 : renderItem le d b it with ⟨r1, evs1⟩
      rcases h2 : renderItems le d b rest with ⟨r2, evs2⟩
      have hm1 : lev ∈ (renderItem le d b it).2 → _ := fun h =>
        renderItem_observed le d b it lev h g hobs
      have hm2 : lev ∈ (renderItems le d b rest).2 → _ := fun h =>
        ih lev h g hobs
      simp only [renderItems, h1, h2] at hmem
      cases r1 with
      | ok s1 =>
          cases r2 with
          | ok s2 =>
              rcases List.mem_append.mp hmem with h | h
              · exact hm1 (by rw [h1]; exact h)
              · exact hm2 (by rw [h2]; exact h)
          | err e2 =>
              rcases List.mem_append.mp hmem with h | h
              · exact hm1 (by rw [h1]; exact h)
              · exact hm2 (by rw [h2]; exact h)
          | fault =>
              rcases List.mem_append.mp hmem with h | h
              · exact hm1 (by rw [h1]; exact h)
              · exact hm2 (by rw [h2]; exact h)
      | err e1 => exact hm1 (by rw [h1]; exact hmem)
      | fault => exact hm1 (by rw [h1]; exact hmem)

theorem renderTField_observed (le : ListEndpoint) (d : InstanceData) (b : List Change)
    (f : TField) :
    ∀ lev ∈ (renderTField le d b f).2, ∀ g, lev.observed = some g →
      ∃ (i : Nat) (c : Change), lev.target = (i : Int) ∧ b.get? i = some c ∧
        g = c.ResourceRecordSet.Name := by
  cases f with
  | bad s => intro lev h; simp [renderTField] at h
  | tmpl items => exact renderItems_observed le d b items

theorem runValues_nameAt (le : ListEndpoint) (d : InstanceData) (n : Nat) :
    ∀ (vals : List TField) (x : Nat) (batch : List Change) (m : Nat),
      nameAt (runValues le d n vals x batch).2.1 m = nameAt batch m := by
  intro vals
  induction vals with
  | nil => intro x batch m; rfl
  | cons v rest ih =>
      intro x batch m
      rcases hr : renderTField le d batch v with ⟨res, levs⟩
      cases res with
      | ok s =>
          cases hgn : batch.get? n with
          | some c =>
              rcases hrec : runValues le d n rest (x+1)
                  (batch.set n (c.withValue x (.tmpl [.lit s]))) with ⟨res2, b2, evs2⟩
              simp only [runValues, hr, hgn, hrec]
              have h1 := ih (x+1) (batch.set n (c.withValue x (.tmpl [.lit s]))) m
              rw [hrec] at h1
              simp only at h1
              rw [h1, nameAt_setValue batch n c x _ hgn m]
          | none =>
              rcases hrec : runValues le d n rest (x+1) batch with ⟨res2, b2, evs2⟩
              simp only [runValues, hr, hgn, hrec]
              have h1 := ih (x+1) batch m
              rw [hrec] at h1
              exact h1
      | err e => simp only [runValues, hr]
      | fault => simp only [runValues, hr]

theorem runValues_recLen (le : ListEndpoint) (d : InstanceData) (n : Nat) :
    ∀ (vals : List TField) (x : Nat) (batch : List Change) (q : Nat),
      recLen (runValues le d n vals x batch).2.1 q = recLen batch q := by
  intro vals
  induction vals with
  | nil => intro x batch q; rfl
  | cons v rest ih =>
      intro x batch q
      rcases hr : renderTField le d batch v with ⟨res, levs⟩
      cases res with
      | ok s =>
          cases hgn : batch.get? n with
          | some c =>
              rcases hrec : runValues le d n rest (x+1)
                  (batch.set n (c.withValue x (.tmpl [.lit s]))) with ⟨res2, b2, evs2⟩
              simp only [runValues, hr, hgn, hrec]
              have h1 := ih (x+1) (batch.set n (c.withValue x (.tmpl [.lit s]))) q
              rw [hrec] at h1
              simp only at h1
              rw [h1, recLen_setValue batch n c x _ hgn q]
          | none =>
              rcases hrec : runValues le d n rest (x+1) batch with ⟨res2, b2, evs2⟩
              simp only [runValues, hr, hgn, hrec]
              have h1 := ih (x+1) batch q
              rw [hrec] at h1
              exact h1
      | err e => simp only [runValues, hr]
      | fault => simp only [runValues, hr]

theorem runValues_length (le : ListEndpoint) (d : InstanceData) (n : Nat) :
    ∀ (vals : List TField) (x : Nat) (batch : List Change),
      (runValues le d n vals x batch).2.1.length = batch.length := by
  intro vals
  induction vals with
  | nil => intro x batch; rfl
  | cons v rest ih =>
      intro x batch
      rcases hr : renderTField le d batch v with ⟨res, levs⟩
      cases res with
      | ok s =>
          cases hgn : batch.get? n with
          | some c =>
              rcases hrec : runValues le d n rest (x+1)
                  (batch.set n (c.withValue x (.tmpl [.lit s]))) with ⟨res2, b2, evs2⟩
              simp only [runValues, hr, hgn, hrec]
              have h1 := ih (x+1) (batch.set n (c.withValue x (.tmpl [.lit s])))
              rw [hrec] at h1
              simp only at h1
              rw [h1, List.length_set]
          | none =>
              rcases hrec : runValues le d n rest (x+1) batch with ⟨res2, b2, evs2⟩
              simp only [runValues, hr, hgn, hrec]
              have h1 := ih (x+1) batch
              rw [hrec] at h1
              exact h1
      | err e => simp only [runValues, hr]
      | fault => simp only [runValues, hr]

theorem runValues_renderOk_mem (le : ListEndpoint) (d : InstanceData) (n : Nat) :
    ∀ (vals : List TField) (x : Nat) (batch : List Change) (q : Nat) (p : FPos),
      TEvent.renderOk q p ∈ (runValues le d n vals x batch).2.2 →
      q = n ∧ ∃ y, p = FPos.value y ∧ x ≤ y ∧ y < x + vals.length := by
  intro vals
  induction vals with
  | nil => intro x batch q p h; simp [runValues] at h
  | cons v rest ih =>
      intro x batch q p hmem
      rcases hr : renderTField le d batch v with ⟨res, levs⟩
      cases res with
      | ok s =>
          cases hgn : batch.get? n with
          | some c =>
              rcases hrec : runValues le d n rest (x+1)
                  (batch.set n (c.withValue x (.tmpl [.lit s]))) with ⟨res2, b2, evs2⟩
              simp only [runValues, hr, hgn, hrec] at hmem
              rcases List.mem_append.mp hmem with hL | hR
              · exact absurd hL (renderOk_not_mem_lookupMap n (.value x) levs q p)
              · rcases List.mem_cons.mp hR with hEq | hT
                · injection hEq with h1 h2
                  exact ⟨h1, x, h2, Nat.le_refl x, by simp only [List.length_cons]; omega⟩
                · have h2 := ih (x+1) (batch.set n (c.withValue x (.tmpl [.lit s]))) q p
                    (by rw [hrec]; exact hT)
                  obtain ⟨hq, y, hy, hxy, hylen⟩ := h2
                  exact ⟨hq, y, hy, by omega, by simp only [List.length_cons]; omega⟩
          | none =>
              rcases hrec : runValues le d n rest (x+1) batch with ⟨res2, b2, evs2⟩
              simp only [runValues, hr, hgn, hrec] at hmem
              rcases List.mem_append.mp hmem with hL | hR
              · exact absurd hL (renderOk_not_mem_lookupMap n (.value x) levs q p)
              · rcases List.mem_cons.mp hR with hEq | hT
                · injection hEq with h1 h2
                  exact ⟨h1, x, h2, Nat.le_refl x, by simp only [List.length_cons]; omega⟩
                · have h2 := ih (x+1) batch q p (by rw [hrec]; exact hT)
                  obtain ⟨hq, y, hy, hxy, hylen⟩ := h2
                  exact ⟨hq, y, hy, by omega, by simp only [List.length_cons]; omega⟩
      | err e =>
          simp only [runValues, hr] at hmem
          exact absurd hmem (renderOk_not_mem_lookupMap n (.value x) levs q p)
      | fault =>
          simp only [runValues, hr] at hmem
          exact absurd hmem (renderOk_not_mem_lookupMap n (.value x) levs q p)

theorem runValues_changes (le : ListEndpoint) (d : InstanceData) (n : Nat) :
    ∀ (vals : List TField) (x : Nat) (batch : List Change) (q : Nat) (p : FPos),
      fieldAt (runValues le d n vals x batch).2.1 q p ≠ fieldAt batch q p →
      TEvent.renderOk q p ∈ (runValues le d n vals x batch).2.2 := by
  intro vals
  induction vals with
  | nil => intro x batch q p h; exact absurd rfl h
  | cons v rest ih =>
      intro x batch q p hch
      rcases hr : renderTField le d batch v with ⟨res, levs⟩
      cases res with
      | ok s =>
          cases hgn : batch.get? n with
          | some c =>
              rcases hrec : runValues le d n rest (x+1)
                  (batch.set n (c.withValue x (.tmpl [.lit s]))) with ⟨res2, b2, evs2⟩
              simp only [runValues, hr, hgn, hrec] at hch ⊢
              by_cases hb : fieldAt b2 q p =
                  fieldAt (batch.set n (c.withValue x (.tmpl [.lit s]))) q p
              · have hset : fieldAt (batch.set n (c.withValue x (.tmpl [.lit s]))) q p ≠
                    fieldAt batch q p := by
                  intro hcon
                  exact hch (hb.trans hcon)
                have hqp : q = n ∧ p = FPos.value x := by
                  cases p with
                  | name =>
                      exact absurd (nameAt_setValue batch n c x _ hgn q) hset
                  | value y =>
                      by_cases hq : q = n
                      · by_cases hy : y = x
                        · exact ⟨hq, by rw [hy]⟩
                        · exact absurd
                            (valueAt_setValue_ne batch n c x _ hgn q y (Or.inr hy)) hset
                      · exact absurd
                          (valueAt_setValue_ne batch n c x _ hgn q y (Or.inl hq)) hset
                rcases hqp with ⟨hq, hp⟩
                rw [hq, hp]
                exact List.mem_append.mpr (Or.inr (List.mem_cons.mpr (Or.inl rfl)))
              · have hmem2 := ih (x+1) (batch.set n (c.withValue x (.tmpl [.lit s]))) q p
                  (by rw [hrec]; exact hb)
                rw [hrec] at hmem2
                exact List.mem_append.mpr (Or.inr (List.mem_cons.mpr (Or.inr hmem2)))
          | none =>
              rcases hrec : runValues le d n rest (x+1) batch with ⟨res2, b2, evs2⟩
              simp only [runValues, hr, hgn, hrec] at hch ⊢
              have hmem2 := ih (x+1) batch q p (by rw [hrec]; exact hch)
              rw [hrec] at hmem2
              exact List.mem_append.mpr (Or.inr (List.mem_cons.mpr (Or.inr hmem2)))
      | err e =>
          simp only [runValues, hr] at hch
          exact absurd rfl hch
      | fault =>
          simp only [runValues, hr] at hch
          exact absurd rfl hch

theorem runValues_lit (le : ListEndpoint) (d : InstanceData) (n : Nat) :
    ∀ (vals : List TField) (x : Nat) (batch : List Change),
      recLen batch n = some (x + vals.length) →
      ∀ q p, TEvent.renderOk q p ∈ (runValues le d n vals x batch).2.2 →
      optLit (fieldAt (runValues le d n vals x batch).2.1 q p) = true := by
  intro vals
  induction vals with
  | nil => intro x batch _ q p h; simp [runValues] at h
  | cons v rest ih =>
      intro x batch hlen q p hmem
      rcases hr : renderTField le d batch v with ⟨res, levs⟩
      cases res with
      | ok s =>
          cases hgn : batch.get? n with
          | none =>
              rw [recLen, hgn] at hlen
              exact Option.noConfusion hlen
          | some c =>
              have hclen : c.ResourceRecordSet.ResourceRecords.length =
                  x + (rest.length + 1) := by
                rw [recLen, hgn] at hlen
                simpa using hlen
              have hx : x < c.ResourceRecordSet.ResourceRecords.length := by omega
              rcases hrec : runValues le d n rest (x+1)
                  (batch.set n (c.withValue x (.tmpl [.lit s]))) with ⟨res2, b2, evs2⟩
              simp only [runValues, hr, hgn, hrec] at hmem ⊢
              have hlen1 : recLen (batch.set n (c.withValue x (.tmpl [.lit s]))) n =
                  some ((x+1) + rest.length) := by
                rw [recLen_setValue batch n c x _ hgn n, recLen, hgn]
                simp only [Option.map_some', Option.some.injEq]
                rw [hclen]
                omega
              rcases List.mem_append.mp hmem with hL | hR
              · exact absurd hL (renderOk_not_mem_lookupMap n (.value x) levs q p)
              · rcases List.mem_cons.mp hR with hEq | hT
                · injection hEq with h1 h2
                  rw [h1, h2]
                  have hB1 : valueAt (batch.set n (c.withValue x (.tmpl [.lit s]))) n x =
                      some (.tmpl [.lit s]) :=
                    valueAt_setValue_eq batch n c x _ hgn hx
                  by_cases hpres : fieldAt b2 n (FPos.value x) =
                      fieldAt (batch.set n (c.withValue x (.tmpl [.lit s]))) n
                        (FPos.value x)
                  · rw [hpres]
                    show optLit (valueAt (batch.set n (c.withValue x
                      (.tmpl [.lit s]))) n x) = true
                    rw [hB1]
                    rfl
                  · have hmem2 := runValues_changes le d n rest (x+1)
                      (batch.set n (c.withValue x (.tmpl [.lit s]))) n (FPos.value x)
                      (by rw [hrec]; exact hpres)
                    have hbad := runValues_renderOk_mem le d n rest (x+1)
                      (batch.set n (c.withValue x (.tmpl [.lit s]))) n (FPos.value x)
                      hmem2
                    obtain ⟨_, y, hy, hxy, _⟩ := hbad
                    injection hy with hyx
                    omega
                · have h2 := ih (x+1) (batch.set n (c.withValue x (.tmpl [.lit s])))
                    hlen1 q p (by rw [hrec]; exact hT)
                  rw [hrec] at h2
                  exact h2
      | err e =>
          simp only [runValues, hr] at hmem
          exact absurd hmem (renderOk_not_mem_lookupMap n (.value x) levs q p)
      | fault =>
          simp only [runValues, hr] at hmem
          exact absurd hmem (renderOk_not_mem_lookupMap n (.value x) levs q p)

theorem runValues_renders (le : ListEndpoint) (d : InstanceData) (n : Nat) :
    ∀ (vals : List TField) (x : Nat) (batch : List Change),
      ∃ k, k ≤ vals.length ∧
        rendersOf (runValues le d n vals x batch).2.2 =
          (List.range k).map (fun y => (n, FPos.value (x + y))) ∧
        ((runValues le d n vals x batch).1 = .ok () → k = vals.length) := by
  intro vals
  induction vals with
  | nil =>
      intro x batch
      exact ⟨0, Nat.le_refl 0, rfl, fun _ => rfl⟩
  | cons v rest ih =>
      intro x batch
      rcases hr : renderTField le d batch v with ⟨res, levs⟩
      cases res with
      | ok s =>
          cases hgn : batch.get? n with
          | some c =>
              rcases hrec : runValues le d n rest (x+1)
                  (batch.set n (c.withValue x (.tmpl [.lit s]))) with ⟨res2, b2, evs2⟩
              obtain ⟨k2, hk2le, hk2eq, hk2ok⟩ :=
                ih (x+1) (batch.set n (c.withValue x (.tmpl [.lit s])))
              rw [hrec] at hk2eq hk2ok
              simp only at hk2eq hk2ok
              refine ⟨k2 + 1, by simp only [List.length_cons]; omega, ?_, ?_⟩
              · simp only [runValues, hr, hgn, hrec]
                rw [rendersOf_append, rendersOf_lookupMap,
                  rendersOf_cons_renderOk, hk2eq]
                rw [List.range_succ_eq_map, List.map_cons, List.map_map]
                have hfe : ((fun y => ((n : Nat), FPos.value (x + y))) ∘ Nat.succ) =
                    fun y => ((n : Nat), FPos.value ((x+1) + y)) := by
                  funext y
                  have harith : x + Nat.succ y = x + 1 + y := by omega
                  simp [Function.comp, harith]
                rw [hfe]
                simp only [List.nil_append, Nat.add_zero]
              · simp only [runValues, hr, hgn, hrec]
                intro hok
                rw [hk2ok hok, List.length_cons]
          | none =>
              rcases hrec : runValues le d n rest (x+1) batch with ⟨res2, b2, evs2⟩
              obtain ⟨k2, hk2le, hk2eq, hk2ok⟩ := ih (x+1) batch
              rw [hrec] at hk2eq hk2ok
              simp only at hk2eq hk2ok
              refine ⟨k2 + 1, by simp only [List.length_cons]; omega, ?_, ?_⟩
              · simp only [runValues, hr, hgn, hrec]
                rw [rendersOf_append, rendersOf_lookupMap,
                  rendersOf_cons_renderOk, hk2eq]
                rw [List.range_succ_eq_map, List.map_cons, List.map_map]
                have hfe : ((fun y => ((n : Nat), FPos.value (x + y))) ∘ Nat.succ) =
                    fun y => ((n : Nat), FPos.value ((x+1) + y)) := by
                  funext y
                  have harith : x + Nat.succ y = x + 1 + y := by omega
                  simp [Function.comp, harith]
                rw [hfe]
                simp only [List.nil_append, Nat.add_zero]
              · simp only [runValues, hr, hgn, hrec]
                intro hok
                rw [hk2ok hok, List.length_cons]
      | err e =>
          refine ⟨0, Nat.zero_le _, ?_, ?_⟩
          · simp only [runValues, hr]
            rw [rendersOf_lookupMap]
            rfl
          · simp only [runValues, hr]
            intro hok
            exact absurd hok (by simp)
      | fault =>
          refine ⟨0, Nat.zero_le _, ?_, ?_⟩
          · simp only [runValues, hr]
            rw [rendersOf_lookupMap]
            rfl
          · simp only [runValues, hr]
            intro hok
            exact absurd hok (by simp)

theorem runValues_lookups (le : ListEndpoint) (d : InstanceData) (n : Nat) :
    ∀ (vals : List TField) (x : Nat) (batch : List Change),
      (∀ i g, i ≤ n → nameAt batch i = some g → g.isLit = true) →
      ∀ j pos lev, TEvent.lookup j pos lev ∈ (runValues le d n vals x batch).2.2 →
      j = n ∧ (∃ y, pos = FPos.value y) ∧
        (∀ i : Nat, lev.target = (i : Int) → i ≤ n →
          ∀ g, lev.observed = some g → g.isLit = true) := by
  intro vals
  induction vals with
  | nil => intro x batch _ j pos lev h; simp [runValues] at h
  | cons v rest ih =>
      intro x batch hobs j pos lev hmem
      rcases hr : renderTField le d batch v with ⟨res, levs⟩
      have hbase : lev ∈ levs →
          (∀ i : Nat, lev.target = (i : Int) → i ≤ n →
            ∀ g, lev.observed = some g → g.isLit = true) := by
        intro hin i htg hile g hg
        obtain ⟨i2, c2, htg2, hget2, hgeq2⟩ :=
          renderTField_observed le d batch v lev (by rw [hr]; exact hin) g hg
        have hii : i = i2 := by
          rw [htg] at htg2
          exact_mod_cast htg2
        subst hii
        refine hobs i g hile ?_
        rw [nameAt, hget2, hgeq2]
        rfl
      cases res with
      | ok s =>
          cases hgn : batch.get? n with
          | some c =>
              rcases hrec : runValues le d n rest (x+1)
                  (batch.set n (c.withValue x (.tmpl [.lit s]))) with ⟨res2, b2, evs2⟩
              simp only [runValues, hr, hgn, hrec] at hmem
              rcases List.mem_append.mp hmem with hL | hR
              · obtain ⟨hj, hpos, hin⟩ := lookup_mem_map n (.value x) levs j pos lev hL
                exact ⟨hj, ⟨x, hpos⟩, hbase hin⟩
              · rcases List.mem_cons.mp hR with hEq | hT
                · exact absurd hEq (by intro hh; exact TEvent.noConfusion hh)
                · have hobs1 : ∀ i g, i ≤ n →
                      nameAt (batch.set n (c.withValue x (.tmpl [.lit s]))) i = some g →
                      g.isLit = true := by
                    intro i g hile hng
                    rw [nameAt_setValue batch n c x _ hgn i] at hng
                    exact hobs i g hile hng
                  have h2 := ih (x+1) (batch.set n (c.withValue x (.tmpl [.lit s])))
                    hobs1 j pos lev (by rw [hrec]; exact hT)
                  exact h2
          | none =>
              rcases hrec : runValues le d n rest (x+1) batch with ⟨res2, b2, evs2⟩
              simp only [runValues, hr, hgn, hrec] at hmem
              rcases List.mem_append.mp hmem with hL | hR
              · obtain ⟨hj, hpos, hin⟩ := lookup_mem_map n (.value x) levs j pos lev hL
                exact ⟨hj, ⟨x, hpos⟩, hbase hin⟩
              · rcases List.mem_cons.mp hR with hEq | hT
                · exact absurd hEq (by intro hh; exact TEvent.noConfusion hh)
                · exact ih (x+1) batch hobs j pos lev (by rw [hrec]; exact hT)
      | err e =>
          simp only [runValues, hr] at hmem
          obtain ⟨hj, hpos, hin⟩ := lookup_mem_map n (.value x) levs j pos lev hmem
          exact ⟨hj, ⟨x, hpos⟩, hbase hin⟩
      | fault =>
          simp only [runValues, hr] at hmem
          obtain ⟨hj, hpos, hin⟩ := lookup_mem_map n (.value x) levs j pos lev hmem
          exact ⟨hj, ⟨x, hpos⟩, hbase hin⟩

theorem runBatch_length (le : ListEndpoint) (d : InstanceData) :
    ∀ (r n : Nat) (batch : List Change),
      (runBatch le d n r batch).2.1.length = batch.length := by
  intro r
  induction r with
  | zero => intro n batch; rfl
  | succ r2 ih =>
      intro n batch
      cases hgn : batch.get? n with
      | none => simp only [runBatch, hgn]
      | some rrSet =>
          rcases hr : renderTField le d batch rrSet.ResourceRecordSet.Name
            with ⟨res, levs⟩
          cases res with
          | ok s =>
              rcases hv : runValues le d n
                  (rrSet.ResourceRecordSet.ResourceRecords.map (·.Value)) 0
                  (batch.set n (rrSet.withName (.tmpl [.lit s])))
                with ⟨resV, b2, vevs⟩
              have hvl := runValues_length le d n
                (rrSet.ResourceRecordSet.ResourceRecords.map (·.Value)) 0
                (batch.set n (rrSet.withName (.tmpl [.lit s])))
              rw [hv] at hvl
              simp only [List.length_set] at hvl
              cases resV with
              | ok u =>
                  rcases hb : runBatch le d (n+1) r2 b2 with ⟨res3, b3, evs3⟩
                  simp only [runBatch, hgn, hr, hv, hb]
                  have h3 := ih (n+1) b2
                  rw [hb] at h3
                  simp only at h3 hvl ⊢
                  rw [h3, hvl]
              | err e =>
                  simp only [runBatch, hgn, hr, hv]
                  exact hvl
              | fault =>
                  simp only [runBatch, hgn, hr, hv]
                  exact hvl
          | err e => simp only [runBatch, hgn, hr]
          | fault => simp only [runBatch, hgn, hr]

theorem runBatch_recLen (le : ListEndpoint) (d : InstanceData) :
    ∀ (r n : Nat) (batch : List Change) (q : Nat),
      recLen (runBatch le d n r batch).2.1 q = recLen batch q := by
  intro r
  induction r with
  | zero => intro n batch q; rfl
  | succ r2 ih =>
      intro n batch q
      cases hgn : batch.get? n with
      | none => simp only [runBatch, hgn]
      | some rrSet =>
          rcases hr : renderTField le d batch rrSet.ResourceRecordSet.Name
            with ⟨res, levs⟩
          cases res with
          | ok s =>
              rcases hv : runValues le d n
                  (rrSet.ResourceRecordSet.ResourceRecords.map (·.Value)) 0
                  (batch.set n (rrSet.withName (.tmpl [.lit s])))
                with ⟨resV, b2, vevs⟩
              have hvl := runValues_recLen le d n
                (rrSet.ResourceRecordSet.ResourceRecords.map (·.Value)) 0
                (batch.set n (rrSet.withName (.tmpl [.lit s]))) q
              rw [hv] at hvl
              simp only at hvl
              rw [recLen_setName batch n rrSet _ hgn q] at hvl
              cases resV with
              | ok u =>
                  rcases hb : runBatch le d (n+1) r2 b2 with ⟨res3, b3, evs3⟩
                  simp only [runBatch, hgn, hr, hv, hb]
                  have h3 := ih (n+1) b2 q
                  rw [hb] at h3
                  simp only at h3 ⊢
                  rw [h3, hvl]
              | err e =>
                  simp only [runBatch, hgn, hr, hv]
                  exact hvl
              | fault =>
                  simp only [runBatch, hgn, hr, hv]
                  exact hvl
          | err e => simp only [runBatch, hgn, hr]
          | fault => simp only [runBatch, hgn, hr]

theorem runBatch_renderOk_mem (le : ListEndpoint) (d : InstanceData) :
    ∀ (r n : Nat) (batch : List Change) (q : Nat) (p : FPos),
      TEvent.renderOk q p ∈ (runBatch le d n r batch).2.2 → n ≤ q := by
  intro r
  induction r with
  | zero => intro n batch q p h; simp [runBatch] at h
  | succ r2 ih =>
      intro n batch q p hmem
      cases hgn : batch.get? n with
      | none =>
          simp only [runBatch, hgn] at hmem
          simp at hmem
      | some rrSet =>
          rcases hr : renderTField le d batch rrSet.ResourceRecordSet.Name
            with ⟨res, levs⟩
          cases res with
          | ok s =>
              rcases hv : runValues le d n
                  (rrSet.ResourceRecordSet.ResourceRecords.map (·.Value)) 0
                  (batch.set n (rrSet.withName (.tmpl [.lit s])))
                with ⟨resV, b2, vevs⟩
              cases resV with
              | ok u =>
                  rcases hb : runBatch le d (n+1) r2 b2 with ⟨res3, b3, evs3⟩
                  simp only [runBatch, hgn, hr, hv, hb] at hmem
                  rcases List.mem_append.mp hmem with hL | hR
                  · exact absurd hL (renderOk_not_mem_lookupMap n .name levs q p)
                  · rcases List.mem_cons.mp hR with hEq | hT
                    · injection hEq with h1 _
                      omega
                    · rcases List.mem_append.mp hT with hV | h3
                      · have := runValues_renderOk_mem le d n
                          (rrSet.ResourceRecordSet.ResourceRecords.map (·.Value)) 0
                          (batch.set n (rrSet.withName (.tmpl [.lit s]))) q p
                          (by rw [hv]; exact hV)
                        omega
                      · have := ih (n+1) b2 q p (by rw [hb]; exact h3)
                        omega
              | err e =>
                  simp only [runBatch, hgn, hr, hv] at hmem
                  rcases List.mem_append.mp hmem with hL | hR
                  · exact absurd hL (renderOk_not_mem_lookupMap n .name levs q p)
                  · rcases List.mem_cons.mp hR with hEq | hT
                    · injection hEq with h1 _
                      omega
                    · have := runValues_renderOk_mem le d n
                        (rrSet.ResourceRecordSet.ResourceRecords.map (·.Value)) 0
                        (batch.set n (rrSet.withName (.tmpl [.lit s]))) q p
                        (by rw [hv]; exact hT)
                      omega
              | fault =>
                  simp only [runBatch, hgn, hr, hv] at hmem
                  rcases List.mem_append.mp hmem with hL | hR
                  · exact absurd hL (renderOk_not_mem_lookupMap n .name levs q p)
                  · rcases List.mem_cons.mp hR with hEq | hT
                    · injection hEq with h1 _
                      omega
                    · have := runValues_renderOk_mem le d n
                        (rrSet.ResourceRecordSet.ResourceRecords.map (·.Value)) 0
                        (batch.set n (rrSet.withName (.tmpl [.lit s]))) q p
                        (by rw [hv]; exact hT)
                      omega
          | err e =>
              simp only [runBatch, hgn, hr] at hmem
              exact absurd hmem (renderOk_not_mem_lookupMap n .name levs q p)
          | fault =>
              simp only [runBatch, hgn, hr] at hmem
              exact absurd hmem (renderOk_not_mem_lookupMap n .name levs q p)

theorem runBatch_changes (le : ListEndpoint) (d : InstanceData) :
    ∀ (r n : Nat) (batch : List Change) (q : Nat) (p : FPos),
      fieldAt (runBatch le d n r batch).2.1 q p ≠ fieldAt batch q p →
      TEvent.renderOk q p ∈ (runBatch le d n r batch).2.2 := by
  intro r
  induction r with
  | zero => intro n batch q p h; exact absurd rfl h
  | succ r2 ih =>
      intro n batch q p hch
      cases hgn : batch.get? n with
      | none =>
          simp only [runBatch, hgn] at hch
          exact absurd rfl hch
      | some rrSet =>
          rcases hr : renderTField le d batch rrSet.ResourceRecordSet.Name
            with ⟨res, levs⟩
          cases res with
          | ok s =>
              rcases hv : runValues le d n
                  (rrSet.ResourceRecordSet.ResourceRecords.map (·.Value)) 0
                  (batch.set n (rrSet.withName (.tmpl [.lit s])))
                with ⟨resV, b2, vevs⟩
              have hname : ∀ (hset : fieldAt (batch.set n
                  (rrSet.withName (.tmpl [.lit s]))) q p ≠ fieldAt batch q p),
                  q = n ∧ p = FPos.name := by
                intro hset
                cases p with
                | name =>
                    by_cases hq : q = n
                    · exact ⟨hq, rfl⟩
                    · exact absurd (nameAt_setName_ne batch n rrSet _ q hq) hset
                | value y =>
                    exact absurd (valueAt_setName batch n rrSet _ hgn q y) hset
              cases resV with
              | ok u =>
                  rcases hb : runBatch le d (n+1) r2 b2 with ⟨res3, b3, evs3⟩
                  simp only [runBatch, hgn, hr, hv, hb] at hch ⊢
                  by_cases h3 : fieldAt b3 q p = fieldAt b2 q p
                  · by_cases h2 : fieldAt b2 q p =
                        fieldAt (batch.set n (rrSet.withName (.tmpl [.lit s]))) q p
                    · have hset : fieldAt (batch.set n
                          (rrSet.withName (.tmpl [.lit s]))) q p ≠ fieldAt batch q p := by
                        intro hcon
                        exact hch ((h3.trans h2).trans hcon)
                      obtain ⟨hq, hp⟩ := hname hset
                      rw [hq, hp]
                      exact List.mem_append.mpr (Or.inr (List.mem_cons.mpr (Or.inl rfl)))
                    · have hmemV := runValues_changes le d n
                        (rrSet.ResourceRecordSet.ResourceRecords.map (·.Value)) 0
                        (batch.set n (rrSet.withName (.tmpl [.lit s]))) q p
                        (by rw [hv]; exact h2)
                      rw [hv] at hmemV
                      exact List.mem_append.mpr (Or.inr (List.mem_cons.mpr
                        (Or.inr (List.mem_append.mpr (Or.inl hmemV)))))
                  · have hmem3 := ih (n+1) b2 q p (by rw [hb]; exact h3)
                    rw [hb] at hmem3
                    exact List.mem_append.mpr (Or.inr (List.mem_cons.mpr
                      (Or.inr (List.mem_append.mpr (Or.inr hmem3)))))
              | err e =>
                  simp only [runBatch, hgn, hr, hv] at hch ⊢
                  by_cases h2 : fieldAt b2 q p =
                      fieldAt (batch.set n (rrSet.withName (.tmpl [.lit s]))) q p
                  · have hset : fieldAt (batch.set n
                        (rrSet.withName (.tmpl [.lit s]))) q p ≠ fieldAt batch q p := by
                      intro hcon
                      exact hch (h2.trans hcon)
                    obtain ⟨hq, hp⟩ := hname hset
                    rw [hq, hp]
                    exact List.mem_append.mpr (Or.inr (List.mem_cons.mpr (Or.inl rfl)))
                  · have hmemV := runValues_changes le d n
                      (rrSet.ResourceRecordSet.ResourceRecords.map (·.Value)) 0
                      (batch.set n (rrSet.withName (.tmpl [.lit s]))) q p
                      (by rw [hv]; exact h2)
                    rw [hv] at hmemV
                    exact List.mem_append.mpr (Or.inr (List.mem_cons.mpr
                      (Or.inr hmemV)))
              | fault =>
                  simp only [runBatch, hgn, hr, hv] at hch ⊢
                  by_cases h2 : fieldAt b2 q p =
                      fieldAt (batch.set n (rrSet.withName (.tmpl [.lit s]))) q p
                  · have hset : fieldAt (batch.set n
                        (rrSet.withName (.tmpl [.lit s]))) q p ≠ fieldAt batch q p := by
                      intro hcon
                      exact hch (h2.trans hcon)
                    obtain ⟨hq, hp⟩ := hname hset
                    rw [hq, hp]
                    exact List.mem_append.mpr (Or.inr (List.mem_cons.mpr (Or.inl rfl)))
                  · have hmemV := runValues_changes le d n
                      (rrSet.ResourceRecordSet.ResourceRecords.map (·.Value)) 0
                      (batch.set n (rrSet.withName (.tmpl [.lit s]))) q p
                      (by rw [hv]; exact h2)
                    rw [hv] at hmemV
                    exact List.mem_append.mpr (Or.inr (List.mem_cons.mpr
                      (Or.inr hmemV)))
          | err e =>
              simp only [runBatch, hgn, hr] at hch
              exact absurd rfl hch
          | fault =>
              simp only [runBatch, hgn, hr] at hch
              exact absurd rfl hch

theorem runBatch_lit (le : ListEndpoint) (d : InstanceData) :
    ∀ (r n : Nat) (batch : List Change) (q : Nat) (p : FPos),
      TEvent.renderOk q p ∈ (runBatch le d n r batch).2.2 →
      optLit (fieldAt (runBatch le d n r batch).2.1 q p) = true := by
  intro r
  induction r with
  | zero => intro n batch q p h; simp [runBatch] at h
  | succ r2 ih =>
      intro n batch q p hmem
      cases hgn : batch.get? n with
      | none =>
          simp only [runBatch, hgn] at hmem
          simp at hmem
      | some rrSet =>
          rcases hr : renderTField le d batch rrSet.ResourceRecordSet.Name
            with ⟨res, levs⟩
          cases res with
          | ok s =>
              rcases hv : runValues le d n
                  (rrSet.ResourceRecordSet.ResourceRecords.map (·.Value)) 0
                  (batch.set n (rrSet.withName (.tmpl [.lit s])))
                with ⟨resV, b2, vevs⟩
              have hlen1 : recLen (batch.set n (rrSet.withName (.tmpl [.lit s]))) n =
                  some (0 +
                    (rrSet.ResourceRecordSet.ResourceRecords.map (·.Value)).length) := by
                rw [recLen_setName batch n rrSet _ hgn n, recLen, hgn]
                simp [List.length_map]
              have hnameB1 : nameAt (batch.set n (rrSet.withName (.tmpl [.lit s]))) n =
                  some (.tmpl [.lit s]) := nameAt_setName_eq batch n rrSet _ hgn
              have hnameB2 : nameAt b2 n = some (.tmpl [.lit s]) := by
                have hvn := runValues_nameAt le d n
                  (rrSet.ResourceRecordSet.ResourceRecords.map (·.Value)) 0
                  (batch.set n (rrSet.withName (.tmpl [.lit s]))) n
                rw [hv] at hvn
                simp only at hvn
                rw [hvn, hnameB1]
              cases resV with
              | ok u =>
                  rcases hb : runBatch le d (n+1) r2 b2 with ⟨res3, b3, evs3⟩
                  simp only [runBatch, hgn, hr, hv, hb] at hmem ⊢
                  have hpres : ∀ pp, fieldAt b3 n pp = fieldAt b2 n pp := by
                    intro pp
                    by_cases hc3 : fieldAt b3 n pp = fieldAt b2 n pp
                    · exact hc3
                    · have h3 := runBatch_changes le d r2 (n+1) b2 n pp
                        (by rw [hb]; exact hc3)
                      have h4 := runBatch_renderOk_mem le d r2 (n+1) b2 n pp h3
                      omega
                  rcases List.mem_append.mp hmem with hL | hR
                  · exact absurd hL (renderOk_not_mem_lookupMap n .name levs q p)
                  · rcases List.mem_cons.mp hR with hEq | hT
                    · injection hEq with h1 h2
                      rw [h1, h2, hpres FPos.name]
                      show optLit (nameAt b2 n) = true
                      rw [hnameB2]
                      rfl
                    · rcases List.mem_append.mp hT with hV | h3
                      · have hml := runValues_lit le d n
                          (rrSet.ResourceRecordSet.ResourceRecords.map (·.Value)) 0
                          (batch.set n (rrSet.withName (.tmpl [.lit s]))) hlen1 q p
                          (by rw [hv]; exact hV)
                        rw [hv] at hml
                        simp only at hml
                        obtain ⟨hq, y, hy, _, _⟩ := runValues_renderOk_mem le d n
                          (rrSet.ResourceRecordSet.ResourceRecords.map (·.Value)) 0
                          (batch.set n (rrSet.withName (.tmpl [.lit s]))) q p
                          (by rw [hv]; exact hV)
                        subst hq
                        rw [hpres p]
                        exact hml
                      · have h5 := ih (n+1) b2 q p (by rw [hb]; exact h3)
                        rw [hb] at h5
                        exact h5
              | err e =>
                  simp only [runBatch, hgn, hr, hv] at hmem ⊢
                  rcases List.mem_append.mp hmem with hL | hR
                  · exact absurd hL (renderOk_not_mem_lookupMap n .name levs q p)
                  · rcases List.mem_cons.mp hR with hEq | hT
                    · injection hEq with h1 h2
                      rw [h1, h2]
                      show optLit (nameAt b2 n) = true
                      rw [hnameB2]
                      rfl
                    · have hml := runValues_lit le d n
                        (rrSet.ResourceRecordSet.ResourceRecords.map (·.Value)) 0
                        (batch.set n (rrSet.withName (.tmpl [.lit s]))) hlen1 q p
                        (by rw [hv]; exact hT)
                      rw [hv] at hml
                      exact hml
              | fault =>
                  simp only [runBatch, hgn, hr, hv] at hmem ⊢
                  rcases List.mem_append.mp hmem with hL | hR
                  · exact absurd hL (renderOk_not_mem_lookupMap n .name levs q p)
                  · rcases List.mem_cons.mp hR with hEq | hT
                    · injection hEq with h1 h2
                      rw [h1, h2]
                      show optLit (nameAt b2 n) = true
                      rw [hnameB2]
                      rfl
                    · have hml := runValues_lit le d n
                        (rrSet.ResourceRecordSet.ResourceRecords.map (·.Value)) 0
                        (batch.set n (rrSet.withName (.tmpl [.lit s]))) hlen1 q p
                        (by rw [hv]; exact hT)
                      rw [hv] at hml
                      exact hml
          | err e =>
              simp only [runBatch, hgn, hr] at hmem
              exact absurd hmem (renderOk_not_mem_lookupMap n .name levs q p)
          | fault =>
              simp only [runBatch, hgn, hr] at hmem
              exact absurd hmem (renderOk_not_mem_lookupMap n .name levs q p)

theorem schedFrom_congr (b1 b2 : List Change)
    (h : ∀ q, recLen b1 q = recLen b2 q) :
    ∀ (r n : Nat), schedFrom b1 n r = schedFrom b2 n r := by
  intro r
  induction r with
  | zero => intro n; rfl
  | succ r2 ih =>
      intro n
      have hq := h n
      simp only [schedFrom]
      cases h1 : b1.get? n with
      | none =>
          cases h2 : b2.get? n with
          | none => rfl
          | some c2 =>
              rw [recLen, recLen, h1, h2] at hq
              exact Option.noConfusion hq
      | some c1 =>
          cases h2 : b2.get? n with
          | none =>
              rw [recLen, recLen, h1, h2] at hq
              exact Option.noConfusion hq
          | some c2 =>
              rw [recLen, recLen, h1, h2] at hq
              simp only [Option.map_some', Option.some.injEq] at hq
              show entrySchedule n c1.ResourceRecordSet.ResourceRecords.length ++
                  schedFrom b1 (n+1) r2 =
                entrySchedule n c2.ResourceRecordSet.ResourceRecords.length ++
                  schedFrom b2 (n+1) r2
              rw [hq, ih (n+1)]

theorem runBatch_renders (le : ListEndpoint) (d : InstanceData) :
    ∀ (r n : Nat) (batch : List Change),
      ∃ k, rendersOf (runBatch le d n r batch).2.2 = (schedFrom batch n r).take k ∧
        ((runBatch le d n r batch).1 = .ok () →
          rendersOf (runBatch le d n r batch).2.2 = schedFrom batch n r) := by
  intro r
  induction r with
  | zero => intro n batch; exact ⟨0, rfl, fun _ => rfl⟩
  | succ r2 ih =>
      intro n batch
      cases hgn : batch.get? n with
      | none =>
          refine ⟨0, ?_, ?_⟩
          · simp only [runBatch, hgn, schedFrom]
            rfl
          · simp only [runBatch, hgn, schedFrom]
            intro _
            rfl
      | some rrSet =>
          rcases hr : renderTField le d batch rrSet.ResourceRecordSet.Name
            with ⟨res, levs⟩
          have hsched : schedFrom batch n (r2+1) =
              (n, FPos.name) ::
                ((List.range rrSet.ResourceRecordSet.ResourceRecords.length).map
                  (fun y => (n, FPos.value y)) ++ schedFrom batch (n+1) r2) := by
            simp only [schedFrom, hgn, entrySchedule]
            rfl
          cases res with
          | ok s =>
              rcases hv : runValues le d n
                  (rrSet.ResourceRecordSet.ResourceRecords.map (·.Value)) 0
                  (batch.set n (rrSet.withName (.tmpl [.lit s])))
                with ⟨resV, b2, vevs⟩
              obtain ⟨kv, hkvle, hkveq, hkvok⟩ := runValues_renders le d n
                (rrSet.ResourceRecordSet.ResourceRecords.map (·.Value)) 0
                (batch.set n (rrSet.withName (.tmpl [.lit s])))
              rw [hv] at hkveq hkvok
              simp only at hkveq hkvok
              rw [List.length_map] at hkvle
              have hzero : (fun y => ((n : Nat), FPos.value (0 + y))) =
                  fun y => ((n : Nat), FPos.value y) := by
                funext y
                simp
              rw [hzero] at hkveq
              cases resV with
              | ok u =>
                  have hkv : kv = rrSet.ResourceRecordSet.ResourceRecords.length := by
                    rw [hkvok rfl, List.length_map]
                  subst hkv
                  rcases hb : runBatch le d (n+1) r2 b2 with ⟨res3, b3, evs3⟩
                  obtain ⟨k3, hk3eq, hk3ok⟩ := ih (n+1) b2
                  rw [hb] at hk3eq hk3ok
                  simp only at hk3eq hk3ok
                  have hcong : schedFrom b2 (n+1) r2 = schedFrom batch (n+1) r2 := by
                    apply schedFrom_congr
                    intro q
                    have h1 := runValues_recLen le d n
                      (rrSet.ResourceRecordSet.ResourceRecords.map (·.Value)) 0
                      (batch.set n (rrSet.withName (.tmpl [.lit s]))) q
                    rw [hv] at h1
                    simp only at h1
                    rw [h1, recLen_setName batch n rrSet _ hgn q]
                  rw [hcong] at hk3eq hk3ok
                  refine ⟨((List.range
                      rrSet.ResourceRecordSet.ResourceRecords.length).map
                      (fun y => ((n : Nat), FPos.value y))).length + k3 + 1, ?_, ?_⟩
                  · simp only [runBatch, hgn, hr, hv, hb]
                    rw [rendersOf_append, rendersOf_lookupMap,
                      rendersOf_cons_renderOk, rendersOf_append, hkveq, hk3eq]
                    rw [hsched, List.take_succ_cons, List.take_append]
                    simp
                  · simp only [runBatch, hgn, hr, hv, hb]
                    intro hok
                    rw [rendersOf_append, rendersOf_lookupMap,
                      rendersOf_cons_renderOk, rendersOf_append, hkveq,
                      hk3ok hok, hsched]
                    simp
              | err e =>
                  refine ⟨kv + 1, ?_, ?_⟩
                  · simp only [runBatch, hgn, hr, hv]
                    rw [rendersOf_append, rendersOf_lookupMap,
                      rendersOf_cons_renderOk, hkveq]
                    rw [hsched, List.take_succ_cons]
                    rw [List.take_append_of_le_length
                      (by rw [List.length_map, List.length_range]; exact hkvle)]
                    rw [← List.map_take, List.take_range]
                    rw [Nat.min_eq_left hkvle]
                    simp
                  · simp only [runBatch, hgn, hr, hv]
                    intro hok
                    exact absurd hok (by simp)
              | fault =>
                  refine ⟨kv + 1, ?_, ?_⟩
                  · simp only [runBatch, hgn, hr, hv]
                    rw [rendersOf_append, rendersOf_lookupMap,
                      rendersOf_cons_renderOk, hkveq]
                    rw [hsched, List.take_succ_cons]
                    rw [List.take_append_of_le_length
                      (by rw [List.length_map, List.length_range]; exact hkvle)]
                    rw [← List.map_take, List.take_range]
                    rw [Nat.min_eq_left hkvle]
                    simp
                  · simp only [runBatch, hgn, hr, hv]
                    intro hok
                    exact absurd hok (by simp)
          | err e =>
              refine ⟨0, ?_, ?_⟩
              · simp only [runBatch, hgn, hr]
                rw [rendersOf_lookupMap]
                rfl
              · simp only [runBatch, hgn, hr]
                intro hok
                exact absurd hok (by simp)
          | fault =>
              refine ⟨0, ?_, ?_⟩
              · simp only [runBatch, hgn, hr]
                rw [rendersOf_lookupMap]
                rfl
              · simp only [runBatch, hgn, hr]
                intro hok
                exact absurd hok (by simp)

theorem runBatch_lookups (le : ListEndpoint) (d : InstanceData) :
    ∀ (r n : Nat) (batch : List Change),
      (∀ i g, i < n → nameAt batch i = some g → g.isLit = true) →
      ∀ j pos lev, TEvent.lookup j pos lev ∈ (runBatch le d n r batch).2.2 →
      n ≤ j ∧
        (∀ i : Nat, lev.target = (i : Int) →
          ((pos = FPos.name ∧ i < j) ∨ ((∃ x, pos = FPos.value x) ∧ i ≤ j)) →
          ∀ g, lev.observed = some g → g.isLit = true) := by
  intro r
  induction r with
  | zero => intro n batch _ j pos lev h; simp [runBatch] at h
  | succ r2 ih =>
      intro n batch hobs j pos lev hmem
      cases hgn : batch.get? n with
      | none =>
          simp only [runBatch, hgn] at hmem
          simp at hmem
      | some rrSet =>
          rcases hr : renderTField le d batch rrSet.ResourceRecordSet.Name
            with ⟨res, levs⟩
          have hbase : lev ∈ levs → ∀ i : Nat, lev.target = (i : Int) → i < n →
              ∀ g, lev.observed = some g → g.isLit = true := by
            intro hin i htg hilt g hg
            obtain ⟨i2, c2, htg2, hget2, hgeq2⟩ :=
              renderTField_observed le d batch rrSet.ResourceRecordSet.Name lev
                (by rw [hr]; exact hin) g hg
            have hii : i = i2 := by
              rw [htg] at htg2
              exact_mod_cast htg2
            subst hii
            refine hobs i g hilt ?_
            rw [nameAt, hget2, hgeq2]
            rfl
          cases res with
          | ok s =>
              rcases hv : runValues le d n
                  (rrSet.ResourceRecordSet.ResourceRecords.map (·.Value)) 0
                  (batch.set n (rrSet.withName (.tmpl [.lit s])))
                with ⟨resV, b2, vevs⟩
              have hobs1 : ∀ i g, i ≤ n →
                  nameAt (batch.set n (rrSet.withName (.tmpl [.lit s]))) i = some g →
                  g.isLit = true := by
                intro i g hile hng
                by_cases hi : i = n
                · subst hi
                  rw [nameAt_setName_eq batch i rrSet _ hgn] at hng
                  rw [← Option.some.inj hng]
                  rfl
                · rw [nameAt_setName_ne batch n rrSet _ i hi] at hng
                  exact hobs i g (by omega) hng
              have hvals : ∀ (hin : TEvent.lookup j pos lev ∈ vevs),
                  n ≤ j ∧
                    (∀ i : Nat, lev.target = (i : Int) →
                      ((pos = FPos.name ∧ i < j) ∨
                        ((∃ x, pos = FPos.value x) ∧ i ≤ j)) →
                      ∀ g, lev.observed = some g → g.isLit = true) := by
                intro hin
                obtain ⟨hj, ⟨y, hy⟩, hcore⟩ := runValues_lookups le d n
                  (rrSet.ResourceRecordSet.ResourceRecords.map (·.Value)) 0
                  (batch.set n (rrSet.withName (.tmpl [.lit s]))) hobs1 j pos lev
                  (by rw [hv]; exact hin)
                subst hj
                refine ⟨Nat.le_refl j, ?_⟩
                intro i htg hcond g hg
                rcases hcond with ⟨hpn, _⟩ | ⟨_, hile⟩
                · rw [hy] at hpn
                  exact FPos.noConfusion hpn
                · exact hcore i htg hile g hg
              have hnames : ∀ (hin : lev ∈ levs) (hj : j = n) (hp : pos = FPos.name),
                  n ≤ j ∧
                    (∀ i : Nat, lev.target = (i : Int) →
                      ((pos = FPos.name ∧ i < j) ∨
                        ((∃ x, pos = FPos.value x) ∧ i ≤ j)) →
                      ∀ g, lev.observed = some g → g.isLit = true) := by
                intro hin hj hp
                subst hj
                refine ⟨Nat.le_refl j, ?_⟩
                intro i htg hcond g hg
                rcases hcond with ⟨_, hilt⟩ | ⟨⟨x, hx⟩, _⟩
                · exact hbase hin i htg hilt g hg
                · rw [hp] at hx
                  exact FPos.noConfusion hx
              cases resV with
              | ok u =>
                  rcases hb : runBatch le d (n+1) r2 b2 with ⟨res3, b3, evs3⟩
                  simp only [runBatch, hgn, hr, hv, hb] at hmem
                  rcases List.mem_append.mp hmem with hL | hR
                  · obtain ⟨hj, hpos, hin⟩ := lookup_mem_map n .name levs j pos lev hL
                    exact hnames hin hj hpos
                  · rcases List.mem_cons.mp hR with hEq | hT
                    · exact absurd hEq (by intro hh; exact TEvent.noConfusion hh)
                    · rcases List.mem_append.mp hT with hV | h3
                      · exact hvals hV
                      · have hobs2 : ∀ i g, i < n+1 → nameAt b2 i = some g →
                            g.isLit = true := by
                          intro i g hilt hng
                          have hvn := runValues_nameAt le d n
                            (rrSet.ResourceRecordSet.ResourceRecords.map (·.Value)) 0
                            (batch.set n (rrSet.withName (.tmpl [.lit s]))) i
                          rw [hv] at hvn
                          simp only at hvn
                          rw [hvn] at hng
                          exact hobs1 i g (by omega) hng
                        have h5 := ih (n+1) b2 hobs2 j pos lev (by rw [hb]; exact h3)
                        exact ⟨by omega, h5.2⟩
              | err e =>
                  simp only [runBatch, hgn, hr, hv] at hmem
                  rcases List.mem_append.mp hmem with hL | hR
                  · obtain ⟨hj, hpos, hin⟩ := lookup_mem_map n .name levs j pos lev hL
                    exact hnames hin hj hpos
                  · rcases List.mem_cons.mp hR with hEq | hT
                    · exact absurd hEq (by intro hh; exact TEvent.noConfusion hh)
                    · exact hvals hT
              | fault =>
                  simp only [runBatch, hgn, hr, hv] at hmem
                  rcases List.mem_append.mp hmem with hL | hR
                  · obtain ⟨hj, hpos, hin⟩ := lookup_mem_map n .name levs j pos lev hL
                    exact hnames hin hj hpos
                  · rcases List.mem_cons.mp hR with hEq | hT
                    · exact absurd hEq (by intro hh; exact TEvent.noConfusion hh)
                    · exact hvals hT
          | err e =>
              simp only [runBatch, hgn, hr] at hmem
              obtain ⟨hj, hpos, hin⟩ := lookup_mem_map n .name levs j pos lev hmem
              subst hj
              refine ⟨Nat.le_refl j, ?_⟩
              intro i htg hcond g hg
              rcases hcond with ⟨_, hilt⟩ | ⟨⟨x, hx⟩, _⟩
              · exact hbase hin i htg hilt g hg
              · rw [hpos] at hx
                exact FPos.noConfusion hx
          | fault =>
              simp only [runBatch, hgn, hr] at hmem
              obtain ⟨hj, hpos, hin⟩ := lookup_mem_map n .name levs j pos lev hmem
              subst hj
              refine ⟨Nat.le_refl j, ?_⟩
              intro i htg hcond g hg
              rcases hcond with ⟨_, hilt⟩ | ⟨⟨x, hx⟩, _⟩
              · exact hbase hin i htg hilt g hg
              · rw [hpos] at hx
                exact FPos.noConfusion hx

theorem schedFrom_mem (batch : List Change) :
    ∀ (r n q : Nat) (c : Change),
      batch.get? q = some c → n ≤ q → q < n + r →
      (q, FPos.name) ∈ schedFrom batch n r ∧
      ∀ y, y < c.ResourceRecordSet.ResourceRecords.length →
        (q, FPos.value y) ∈ schedFrom batch n r := by
  intro r
  induction r with
  | zero => intro n q c _ h1 h2; omega
  | succ r2 ih =>
      intro n q c hget hnq hqr
      have hlt : n < batch.length := by
        have := get?_some_lt batch q c hget
        omega
      obtain ⟨cn, hcn⟩ := lt_get?_some batch n hlt
      by_cases hq : q = n
      · subst hq
        have hc : cn = c := Option.some.inj (hcn.symm.trans hget)
        subst hc
        constructor
        · simp only [schedFrom, hcn, entrySchedule, List.cons_append]
          exact List.mem_cons.mpr (Or.inl rfl)
        · intro y hy
          simp only [schedFrom, hcn, entrySchedule, List.cons_append]
          refine List.mem_cons.mpr (Or.inr (List.mem_append.mpr (Or.inl ?_)))
          rw [List.mem_map]
          exact ⟨y, List.mem_range.mpr hy, rfl⟩
      · have h2 := ih (n+1) q c hget (by omega) (by omega)
        constructor
        · simp only [schedFrom, hcn, entrySchedule, List.cons_append]
          exact List.mem_cons.mpr (Or.inr (List.mem_append.mpr (Or.inr h2.1)))
        · intro y hy
          simp only [schedFrom, hcn, entrySchedule, List.cons_append]
          exact List.mem_cons.mpr
            (Or.inr (List.mem_append.mpr (Or.inr (h2.2 y hy))))

theorem fieldAt_some_bounds (b : List Change) (q : Nat) (p : FPos) (g : TField)
    (h : fieldAt b q p = some g) :
    ∃ c, b.get? q = some c ∧
      ∀ y, p = FPos.value y → y < c.ResourceRecordSet.ResourceRecords.length := by
  cases p with
  | name =>
      simp only [fieldAt] at h
      cases hg : b.get? q with
      | none =>
          rw [nameAt, hg] at h
          exact Option.noConfusion h
      | some c => exact ⟨c, rfl, fun y hy => FPos.noConfusion hy⟩
  | value x =>
      simp only [fieldAt] at h
      cases hg : b.get? q with
      | none =>
          rw [valueAt, hg] at h
          exact Option.noConfusion h
      | some c =>
          rw [valueAt, hg, Option.some_bind] at h
          cases hgx : c.ResourceRecordSet.ResourceRecords.get? x with
          | none =>
              rw [hgx] at h
              exact Option.noConfusion h
          | some rec2 =>
              refine ⟨c, rfl, fun y hy => ?_⟩
              injection hy with hxy
              subst hxy
              exact get?_some_lt _ x rec2 hgx

theorem batchLit_of_fields :
    ∀ (b : List Change),
      (∀ q p g, fieldAt b q p = some g → g.isLit = true) →
      batchLit b = true := by
  intro b
  induction b with
  | nil => intro _; rfl
  | cons c rest ih =>
      intro h
      simp only [batchLit, List.all_cons, Bool.and_eq_true]
      refine ⟨⟨?_, ?_⟩, ?_⟩
      · exact h 0 FPos.name c.ResourceRecordSet.Name rfl
      · rw [List.all_eq_true]
        intro rec2 hrec
        obtain ⟨y, hy⟩ := List.get?_of_mem hrec
        refine h 0 (FPos.value y) rec2.Value ?_
        simp only [fieldAt, valueAt, List.get?, Option.some_bind]
        rw [hy]
        rfl
      · have hrest : ∀ q p g, fieldAt rest q p = some g → g.isLit = true := by
          intro q p g hg
          refine h (q+1) p g ?_
          cases p with
          | name => exact hg
          | value x => exact hg
        exact ih hrest

theorem WriteTemplateFields_ok_lit (le : ListEndpoint) (d : InstanceData)
    (batch : List Change)
    (hok : (WriteTemplateFields le d batch).1 = .ok ()) :
    rendersOf (WriteTemplateFields le d batch).2.2 = schedule batch ∧
    batchLit (WriteTemplateFields le d batch).2.1 = true := by
  simp only [WriteTemplateFields] at hok ⊢
  obtain ⟨k, _, hfull⟩ := runBatch_renders le d batch.length 0 batch
  have hsched := hfull hok
  refine ⟨hsched, ?_⟩
  apply batchLit_of_fields
  intro q p g hg
  obtain ⟨c, hc, hbound⟩ := fieldAt_some_bounds _ q p g hg
  have hql : q < batch.length := by
    have h1 := get?_some_lt _ q c hc
    have h2 := runBatch_length le d batch.length 0 batch
    omega
  obtain ⟨c0, hc0⟩ := lt_get?_some batch q hql
  have hrl : recLen (runBatch le d 0 batch.length batch).2.1 q = recLen batch q :=
    runBatch_recLen le d batch.length 0 batch q
  have hlen0 : c.ResourceRecordSet.ResourceRecords.length =
      c0.ResourceRecordSet.ResourceRecords.length := by
    rw [recLen, recLen, hc, hc0] at hrl
    simpa using hrl
  have hmem : (q, p) ∈ schedFrom batch 0 batch.length := by
    have hm := schedFrom_mem batch batch.length 0 q c0 hc0 (Nat.zero_le q)
      (by omega)
    cases p with
    | name => exact hm.1
    | value y =>
        refine hm.2 y ?_
        have := hbound y rfl
        omega
  have hro : TEvent.renderOk q p ∈ (runBatch le d 0 batch.length batch).2.2 := by
    rw [← mem_rendersOf, hsched]
    exact hmem
  have hl := runBatch_lit le d batch.length 0 batch q p hro
  rw [hg] at hl
  exact hl

theorem handle_parse_err (env : Env) (raw : String) (e : String)
    (h : parseFullEvent env raw = .error e) :
    handle env raw = (.err e, []) := by
  simp only [handle, h]

theorem handle_client_err (env : Env) (raw : String) (message : SnsMessage)
    (args : MessageArgs) (e : String)
    (hp : parseFullEvent env raw = .ok (message, args))
    (hc : env.newClient = .error e) :
    handle env raw = (.err e, []) := by
  simp only [handle, hp, hc]

theorem handle_test_branch (env : Env) (raw : String) (message : SnsMessage)
    (args : MessageArgs)
    (hp : parseFullEvent env raw = .ok (message, args))
    (hc : env.newClient = .ok ())
    (he : message.Event = "autoscaling:TEST_NOTIFICATION") :
    handle env raw = (.ok (), []) := by
  simp only [handle, hp, hc, if_pos he]

theorem handle_populate_err (env : Env) (raw : String) (message : SnsMessage)
    (args : MessageArgs) (e : String) (pevs : List HEvent)
    (hp : parseFullEvent env raw = .ok (message, args))
    (hc : env.newClient = .ok ())
    (he : message.Event ≠ "autoscaling:TEST_NOTIFICATION")
    (hpop : populate env.ec2 message.EC2InstanceID args.HostedZoneID =
      (.error e, pevs)) :
    handle env raw = (.err e, pevs) := by
  simp only [handle, hp, hc, if_neg he, hpop]

theorem handle_template_err (env : Env) (raw : String) (message : SnsMessage)
    (args : MessageArgs) (d : InstanceData) (pevs : List HEvent) (e : String)
    (b1 : List Change) (tevs : List TEvent)
    (hp : parseFullEvent env raw = .ok (message, args))
    (hc : env.newClient = .ok ())
    (he : message.Event ≠ "autoscaling:TEST_NOTIFICATION")
    (hpop : populate env.ec2 message.EC2InstanceID args.HostedZoneID =
      (.ok d, pevs))
    (hw : WriteTemplateFields env.listRRS d args.Changes = (.err e, b1, tevs)) :
    handle env raw = (.err e, pevs ++ tevs.flatMap tevToH) := by
  simp only [handle, hp, hc, if_neg he, hpop, hw]

theorem handle_submit_err (env : Env) (raw : String) (message : SnsMessage)
    (args : MessageArgs) (d : InstanceData) (pevs : List HEvent)
    (b1 : List Change) (tevs : List TEvent) (e : String)
    (hp : parseFullEvent env raw = .ok (message, args))
    (hc : env.newClient = .ok ())
    (he : message.Event ≠ "autoscaling:TEST_NOTIFICATION")
    (hpop : populate env.ec2 message.EC2InstanceID args.HostedZoneID =
      (.ok d, pevs))
    (hw : WriteTemplateFields env.listRRS d args.Changes = (.ok (), b1, tevs))
    (hs : env.changeRRS args.HostedZoneID b1 = .error e) :
    handle env raw =
      (.ok (), pevs ++ tevs.flatMap tevToH ++
        [HEvent.submit args.HostedZoneID b1] ++ [HEvent.complete "ABANDON"]) := by
  simp only [handle, hp, hc, if_neg he, hpop, hw, SendRoute53ChangeBatch, hs]

theorem handle_wait_fail (env : Env) (raw : String) (message : SnsMessage)
    (args : MessageArgs) (d : InstanceData) (pevs : List HEvent)
    (b1 : List Change) (tevs : List TEvent) (changeID : String)
    (hp : parseFullEvent env raw = .ok (message, args))
    (hc : env.newClient = .ok ())
    (he : message.Event ≠ "autoscaling:TEST_NOTIFICATION")
    (hpop : populate env.ec2 message.EC2InstanceID args.HostedZoneID =
      (.ok d, pevs))
    (hw : WriteTemplateFields env.listRRS d args.Changes = (.ok (), b1, tevs))
    (hs : env.changeRRS args.HostedZoneID b1 = .ok changeID)
    (hst : (WaitForRoute53Sync (env.getChange changeID)).1 ≠ .INSYNC) :
    handle env raw =
      (.ok (), pevs ++ tevs.flatMap tevToH ++
        [HEvent.submit args.HostedZoneID b1] ++ [HEvent.complete "ABANDON"]) := by
  have hwr : waitResult (WaitForRoute53Sync (env.getChange changeID)).1 =
      .error "exceeded 24 wait attempts" := by
    cases hx : (WaitForRoute53Sync (env.getChange changeID)).1 with
    | INSYNC => exact absurd hx hst
    | PENDING => rfl
    | TIMED_OUT => rfl
  simp only [handle, hp, hc, if_neg he, hpop, hw, SendRoute53ChangeBatch, hs, hwr]

theorem handle_success (env : Env) (raw : String) (message : SnsMessage)
    (args : MessageArgs) (d : InstanceData) (pevs : List HEvent)
    (b1 : List Change) (tevs : List TEvent) (changeID : String)
    (hp : parseFullEvent env raw = .ok (message, args))
    (hc : env.newClient = .ok ())
    (he : message.Event ≠ "autoscaling:TEST_NOTIFICATION")
    (hpop : populate env.ec2 message.EC2InstanceID args.HostedZoneID =
      (.ok d, pevs))
    (hw : WriteTemplateFields env.listRRS d args.Changes = (.ok (), b1, tevs))
    (hs : env.changeRRS args.HostedZoneID b1 = .ok changeID)
    (hst : (WaitForRoute53Sync (env.getChange changeID)).1 = .INSYNC) :
    handle env raw =
      (.ok (), pevs ++ tevs.flatMap tevToH ++
        [HEvent.submit args.HostedZoneID b1] ++ [HEvent.complete "CONTINUE"]) := by
  have hwr : waitResult (WaitForRoute53Sync (env.getChange changeID)).1 = .ok () := by
    rw [hst]; rfl
  simp only [handle, hp, hc, if_neg he, hpop, hw, SendRoute53ChangeBatch, hs, hwr]

theorem handle_submits_le1 (env : Env) (raw : String) :
    (submits (handle env raw).2).length ≤ 1 := by
  cases hp : parseFullEvent env raw with
  | error e =>
      rw [handle_parse_err env raw e hp]
      simp [submits]
  | ok pr =>
      rcases pr with ⟨message, args⟩
      cases hc : env.newClient with
      | error e =>
          rw [handle_client_err env raw message args e hp hc]
          simp [submits]
      | ok u =>
          cases u
          by_cases he : message.Event = "autoscaling:TEST_NOTIFICATION"
          · rw [handle_test_branch env raw message args hp hc he]
            simp [submits]
          · cases hpop : populate env.ec2 message.EC2InstanceID args.HostedZoneID with
            | mk r pevs =>
                have hpe : pevs = [HEvent.describeInstances [message.EC2InstanceID]] := by
                  have := populate_events env.ec2 message.EC2InstanceID args.HostedZoneID
                  rw [hpop] at this
                  exact this
                cases r with
                | error e =>
                    rw [handle_populate_err env raw message args e pevs hp hc he hpop]
                    subst hpe
                    simp [submits]
                | ok d =>
                    cases hw : WriteTemplateFields env.listRRS d args.Changes with
                    | mk res rest =>
                        rcases rest with ⟨b1, tevs⟩
                        cases res with
                        | err e =>
                            rw [handle_template_err env raw message args d pevs e
                              b1 tevs hp hc he hpop hw]
                            subst hpe
                            rw [submits_append, submits_tevToH]
                            simp [submits]
                        | fault =>
                            have : handle env raw =
                                (.fault, pevs ++ tevs.flatMap tevToH) := by
                              simp only [handle, hp, hc, if_neg he, hpop, hw]
                            rw [this]
                            subst hpe
                            rw [submits_append, submits_tevToH]
                            simp [submits]
                        | ok u2 =>
                            cases u2
                            cases hs : env.changeRRS args.HostedZoneID b1 with
                            | error e =>
                                rw [handle_submit_err env raw message args d pevs
                                  b1 tevs e hp hc he hpop hw hs]
                                subst hpe
                                rw [submits_append, submits_append, submits_append,
                                  submits_tevToH]
                                simp [submits]
                            | ok changeID =>
                                by_cases hst :
                                  (WaitForRoute53Sync (env.getChange changeID)).1 =
                                    .INSYNC
                                · rw [handle_success env raw message args d pevs
                                    b1 tevs changeID hp hc he hpop hw hs hst]
                                  subst hpe
                                  rw [submits_append, submits_append, submits_append,
                                    submits_tevToH]
                                  simp [submits]
                                · rw [handle_wait_fail env raw message args d pevs
                                    b1 tevs changeID hp hc he hpop hw hs hst]
                                  subst hpe
                                  rw [submits_append, submits_append, submits_append,
                                    submits_tevToH]
                                  simp [submits]

theorem handle_submit_batchLit (env : Env) (raw : String) (z : String)
    (b : List Change) :
    (z, b) ∈ submits (handle env raw).2 → batchLit b = true := by
  intro hmem
  cases hp : parseFullEvent env raw with
  | error e =>
      rw [handle_parse_err env raw e hp] at hmem
      simp [submits] at hmem
  | ok pr =>
      rcases pr with ⟨message, args⟩
      cases hc : env.newClient with
      | error e =>
          rw [handle_client_err env raw message args e hp hc] at hmem
          simp [submits] at hmem
      | ok u =>
          cases u
          by_cases he : message.Event = "autoscaling:TEST_NOTIFICATION"
          · rw [handle_test_branch env raw message args hp hc he] at hmem
            simp [submits] at hmem
          · cases hpop : populate env.ec2 message.EC2InstanceID args.HostedZoneID with
            | mk r pevs =>
                have hpe : pevs =
                    [HEvent.describeInstances [message.EC2InstanceID]] := by
                  have h2 := populate_events env.ec2 message.EC2InstanceID
                    args.HostedZoneID
                  rw [hpop] at h2
                  exact h2
                subst hpe
                cases r with
                | error e =>
                    rw [handle_populate_err env raw message args e _ hp hc he hpop]
                      at hmem
                    simp [submits] at hmem
                | ok d =>
                    cases hw : WriteTemplateFields env.listRRS d args.Changes with
                    | mk res rest =>
                        rcases rest with ⟨b1, tevs⟩
                        cases res with
                        | err e =>
                            rw [handle_template_err env raw message args d _ e b1 tevs
                              hp hc he hpop hw] at hmem
                            rw [submits_append, submits_tevToH] at hmem
                            simp [submits] at hmem
                        | fault =>
                            have hh : handle env raw = (.fault,
                                [HEvent.describeInstances [message.EC2InstanceID]] ++
                                  tevs.flatMap tevToH) := by
                              simp only [handle, hp, hc, if_neg he, hpop, hw]
                            rw [hh] at hmem
                            rw [submits_append, submits_tevToH] at hmem
                            simp [submits] at hmem
                        | ok u2 =>
                            cases u2
                            have hlit : batchLit b1 = true := by
                              have h3 := (WriteTemplateFields_ok_lit env.listRRS d
                                args.Changes (by rw [hw])).2
                              rw [hw] at h3
                              exact h3
                            cases hs : env.changeRRS args.HostedZoneID b1 with
                            | error e =>
                                rw [handle_submit_err env raw message args d _ b1
                                  tevs e hp hc he hpop hw hs] at hmem
                                rw [submits_append, submits_append, submits_append,
                                  submits_tevToH] at hmem
                                simp [submits] at hmem
                                rw [hmem.2]
                                exact hlit
                            | ok changeID =>
                                by_cases hst :
                                  (WaitForRoute53Sync (env.getChange changeID)).1 =
                                    .INSYNC
                                · rw [handle_success env raw message args d _ b1
                                    tevs changeID hp hc he hpop hw hs hst] at hmem
                                  rw [submits_append, submits_append, submits_append,
                                    submits_tevToH] at hmem
                                  simp [submits] at hmem
                                  rw [hmem.2]
                                  exact hlit
                                · rw [handle_wait_fail env raw message args d _ b1
                                    tevs changeID hp hc he hpop hw hs hst] at hmem
                                  rw [submits_append, submits_append, submits_append,
                                    submits_tevToH] at hmem
                                  simp [submits] at hmem
                                  rw [hmem.2]
                                  exact hlit

/-! ### Claim theorems -/

/-- C3 (counterexample): rendering a batch whose first name template
looks up entry 0 from within its own name field issues a lookup that
targets index 0 while index 0 is being rendered — j equals i — and the
name field it observes for index 0 is the still-unrendered template,
not a rendered literal, so the claim as stated fails for j = i lookups
inside the name field itself. -/
theorem WriteTemplateFields_selfLookup_cex :
    TEvent.lookup 0 FPos.name
        ⟨0, 0, some (TField.tmpl [TItem.existing 0 0]),
         some (findRequest "Z1" "\x7b\x7b.ExistingRDataValue 0 0\x7d\x7d" "A")⟩
      ∈ (WriteTemplateFields negLE negD selfBatch).2.2 ∧
    (TField.tmpl [TItem.existing 0 0]).isLit = false := by
  constructor
  · have htr : (WriteTemplateFields negLE negD selfBatch).2.2 =
        [TEvent.lookup 0 FPos.name
          ⟨0, 0, some (TField.tmpl [TItem.existing 0 0]),
           some (findRequest "Z1" "\x7b\x7b.ExistingRDataValue 0 0\x7d\x7d" "A")⟩,
         TEvent.renderOk 0 FPos.name, TEvent.renderOk 0 (FPos.value 0)] := rfl
    rw [htr]
    exact List.mem_cons.mpr (Or.inl rfl)
  · rfl

/-- C3 (amended): template resolution renders positions in schedule
order — entries in strictly ascending index order, each name field
before that entry's value fields, each position at most once (the
rendered positions are a prefix of the schedule, the whole schedule on
success), each field replaced in place by its rendered literal; every
batch the handler submits is fully rendered; and an existing-value
lookup targeting index i observes only a rendered literal name for
index i when issued from the name field of an index j with i < j, or
from a value field of an index j with i ≤ j.  (A lookup targeting i
from within index i's own name template observes the unrendered
template, per the counterexample.) -/
theorem WriteTemplateFields_order (le : ListEndpoint) (d : InstanceData)
    (batch : List Change) :
    (∃ k, rendersOf (WriteTemplateFields le d batch).2.2 =
      (schedule batch).take k) ∧
    ((WriteTemplateFields le d batch).1 = .ok () →
        rendersOf (WriteTemplateFields le d batch).2.2 = schedule batch ∧
        batchLit (WriteTemplateFields le d batch).2.1 = true) ∧
    (∀ env raw z b, (z, b) ∈ submits (handle env raw).2 → batchLit b = true) ∧
    (∀ j pos lev, TEvent.lookup j pos lev ∈ (WriteTemplateFields le d batch).2.2 →
        ∀ i : Nat, lev.target = (i : Int) →
        ((pos = FPos.name ∧ i < j) ∨ ((∃ x, pos = FPos.value x) ∧ i ≤ j)) →
        ∀ g, lev.observed = some g → g.isLit = true) := by
  refine ⟨?_, ?_, ?_, ?_⟩
  · obtain ⟨k, hk, _⟩ := runBatch_renders le d batch.length 0 batch
    exact ⟨k, hk⟩
  · intro hok
    exact WriteTemplateFields_ok_lit le d batch hok
  · exact fun env raw z b h => handle_submit_batchLit env raw z b h
  · intro j pos lev hmem i htg hcond g hg
    have h2 := runBatch_lookups le d batch.length 0 batch
      (fun i2 g2 hi2 _ => absurd hi2 (Nat.not_lt_zero i2)) j pos lev hmem
    exact h2.2 i htg hcond g hg

/-- C3 (witness): rendering the scenario-A batch renders exactly the
schedule, in order, and leaves every field a literal. -/
theorem WriteTemplateFields_order_witness :
    rendersOf (WriteTemplateFields scenLE scenData scenBatch).2.2 =
      schedule scenBatch ∧
    batchLit (WriteTemplateFields scenLE scenData scenBatch).2.1 = true :=
  (WriteTemplateFields_order scenLE scenData scenBatch).2.1 rfl

/-- C10: when rendering fails partway through a batch, the in-place
mutation is not rolled back — every field whose rendering completed is
its rendered literal in the final batch, every field without a
completed render is unchanged from the input, the completed renders
form a prefix of the schedule (so they are exactly the entries before
the failure point), and a handler invocation whose rendering fails
submits nothing and sends no lifecycle signal. -/
theorem WriteTemplateFields_partial (le : ListEndpoint) (d : InstanceData)
    (batch : List Change) (e : String)
    (_hf : (WriteTemplateFields le d batch).1 = .err e) :
    (∀ q p, TEvent.renderOk q p ∈ (WriteTemplateFields le d batch).2.2 →
        optLit (fieldAt (WriteTemplateFields le d batch).2.1 q p) = true) ∧
    (∀ q p, TEvent.renderOk q p ∉ (WriteTemplateFields le d batch).2.2 →
        fieldAt (WriteTemplateFields le d batch).2.1 q p = fieldAt batch q p) ∧
    (∃ k, rendersOf (WriteTemplateFields le d batch).2.2 =
      (schedule batch).take k) ∧
    (∀ env raw message args d2 pevs e2 b1 tevs,
        parseFullEvent env raw = .ok (message, args) →
        env.newClient = .ok () →
        message.Event ≠ "autoscaling:TEST_NOTIFICATION" →
        populate env.ec2 message.EC2InstanceID args.HostedZoneID = (.ok d2, pevs) →
        WriteTemplateFields env.listRRS d2 args.Changes = (.err e2, b1, tevs) →
        submits (handle env raw).2 = [] ∧ signals (handle env raw).2 = []) := by
  refine ⟨?_, ?_, ?_, ?_⟩
  · intro q p h
    exact runBatch_lit le d batch.length 0 batch q p h
  · intro q p h
    by_contra hne
    exact h (runBatch_changes le d batch.length 0 batch q p hne)
  · obtain ⟨k, hk, _⟩ := runBatch_renders le d batch.length 0 batch
    exact ⟨k, hk⟩
  · intro env raw message args d2 pevs e2 b1 tevs hp hc he hpop hw
    have hpe : pevs = [HEvent.describeInstances [message.EC2InstanceID]] := by
      have h2 := populate_events env.ec2 message.EC2InstanceID args.HostedZoneID
      rw [hpop] at h2
      exact h2
    rw [handle_template_err env raw message args d2 pevs e2 b1 tevs
      hp hc he hpop hw]
    subst hpe
    constructor
    · rw [submits_append, submits_tevToH]
      rfl
    · rw [signals_append, signals_tevToH]
      rfl

/-- C10 (witness): on a batch whose second name template is malformed,
rendering fails, the already-rendered first entry keeps its rendered
literal name, and the unrendered second name is unchanged. -/
theorem WriteTemplateFields_partial_witness :
    optLit (fieldAt (WriteTemplateFields scenLE scenData partialBatch).2.1 0
      FPos.name) = true ∧
    fieldAt (WriteTemplateFields scenLE scenData partialBatch).2.1 1 FPos.name =
      fieldAt partialBatch 1 FPos.name := by
  have hthm := WriteTemplateFields_partial scenLE scenData partialBatch
    ("template parse error: " ++ "\x7b\x7b.") rfl
  exact ⟨hthm.1 0 FPos.name (by decide), hthm.2.1 1 FPos.name (by decide)⟩

/-- C2 (counterexample): the first entry of the listing names
b.example.com. while a.example.com. was requested, yet the lookup
returns that entry's values instead of failing with a not-found
error, so the claimed exact-match check does not exist in the code. -/
theorem FindRoute53ResourceRecord_noMatchCheck_cex :
    FindRoute53ResourceRecord cexListEndpoint "Z123" "a.example.com." "A" =
      .ok ["1.2.3.4"] ∧
    ("b.example.com." = "a.example.com." → False) :=
  ⟨rfl, by decide⟩

/-- C2 (amended): an existing-record lookup issues exactly one listing
request, seeded at (name, type) with MaxItems 1 — the result is fully
determined by the response to that single request; it fails with a
not-found error when the listing comes back empty; but when the listing
is non-empty it returns the first entry's value list unconditionally,
with no check that the first entry equals the requested name and type;
a transport error is propagated as a query error. -/
theorem FindRoute53ResourceRecord_contract (le : ListEndpoint)
    (zoneID name rrType : String) :
    ((findRequest zoneID name rrType).MaxItems = "1" ∧
     (findRequest zoneID name rrType).StartRecordName = name ∧
     (findRequest zoneID name rrType).StartRecordType = rrType ∧
     (findRequest zoneID name rrType).HostedZoneId = zoneID) ∧
    (∀ le2 : ListEndpoint,
        le2 (findRequest zoneID name rrType) = le (findRequest zoneID name rrType) →
        FindRoute53ResourceRecord le2 zoneID name rrType =
          FindRoute53ResourceRecord le zoneID name rrType) ∧
    (le (findRequest zoneID name rrType) = .ok [] →
        FindRoute53ResourceRecord le zoneID name rrType =
          .error ("Resource record set " ++ name ++ " " ++ rrType ++ " not found")) ∧
    (∀ s rest, le (findRequest zoneID name rrType) = .ok (s :: rest) →
        FindRoute53ResourceRecord le zoneID name rrType = .ok s.ResourceRecords) ∧
    (∀ e, le (findRequest zoneID name rrType) = .error e →
        FindRoute53ResourceRecord le zoneID name rrType =
          .error ("Error locating resource record: " ++ e)) := by
  refine ⟨⟨rfl, rfl, rfl, rfl⟩, ?_, ?_, ?_, ?_⟩
  · intro le2 h
    simp only [FindRoute53ResourceRecord, h]
  · intro h
    simp only [FindRoute53ResourceRecord, h]
  · intro s rest h
    simp only [FindRoute53ResourceRecord, h]
  · intro e h
    simp only [FindRoute53ResourceRecord, h]

/-- C2 (witness): on an endpoint whose listing is empty, the lookup
fails with the not-found error. -/
theorem FindRoute53ResourceRecord_contract_witness :
    FindRoute53ResourceRecord (fun _ => Except.ok []) "Z1" "n.example.com." "A" =
      .error ("Resource record set " ++ "n.example.com." ++ " " ++ "A" ++ " not found") :=
  (FindRoute53ResourceRecord_contract (fun _ => Except.ok [])
    "Z1" "n.example.com." "A").2.2.1 rfl

/-- C4: for instance i-123456789 with private address 10.0.0.1 and
public address 54.0.0.1, populate builds the expected context, and
rendering the scenario-A batch succeeds and produces record 0 with name
i-123456789.example.com. and value 54.0.0.1, and record 1 with value
i-123456789.example.com., the name and value fields rendered in index
order. -/
theorem scenarioA_rendering :
    (populate scenEC2 "i-123456789" "ABCDEF0123456789").1 = .ok scenData ∧
    WriteTemplateFields scenLE scenData scenBatch =
      (.ok (),
       [⟨"UPSERT", ⟨.tmpl [.lit "i-123456789.example.com."], 3600, "A",
          [⟨.tmpl [.lit "54.0.0.1"]⟩]⟩⟩,
        ⟨"UPSERT", ⟨.tmpl [.lit "www.example.com."], 3600, "CNAME",
          [⟨.tmpl [.lit "i-123456789.example.com."]⟩]⟩⟩],
       [TEvent.renderOk 0 .name, TEvent.renderOk 0 (.value 0),
        TEvent.renderOk 1 .name, TEvent.renderOk 1 (.value 0)]) := by
  constructor
  · rfl
  · rfl

/-- C5: when the instance fetch succeeds, each address field of the
populated context equals the instance attribute exactly when that
attribute is non-null and non-empty, and defaults to the empty string
when the attribute is absent or empty; in particular, with no public
address, rendering the public-address template yields the empty string
and no error. -/
theorem populate_address_defaults (ec2 : EC2Endpoint) (instanceID zoneID : String)
    (inst : EC2Instance) (d : InstanceData)
    (hf : FetchEC2InstanceData ec2 instanceID = .ok inst)
    (hd : (populate ec2 instanceID zoneID).1 = .ok d) :
    (∀ s, inst.PrivateIpAddress = some s → s ≠ "" →
        d.InstancePrivateIPAddress = s) ∧
    (inst.PrivateIpAddress = none → d.InstancePrivateIPAddress = "") ∧
    (inst.PrivateIpAddress = some "" → d.InstancePrivateIPAddress = "") ∧
    (∀ s, inst.PublicIpAddress = some s → s ≠ "" →
        d.InstancePublicIPAddress = s) ∧
    (inst.PublicIpAddress = none → d.InstancePublicIPAddress = "") ∧
    (inst.PublicIpAddress = some "" → d.InstancePublicIPAddress = "") ∧
    (inst.PublicIpAddress = none →
        ∀ (le : ListEndpoint) (batch : List Change),
          renderTField le d batch (.tmpl [.publicIP]) = (.ok "", [])) := by
  simp only [populate, hf] at hd
  rw [Except.ok.injEq] at hd
  subst hd
  refine ⟨?_, ?_, ?_, ?_, ?_, ?_, ?_⟩
  · intro s hs hne
    simp [hs, hne]
  · intro hs; simp [hs]
  · intro hs; simp [hs]
  · intro s hs hne
    simp [hs, hne]
  · intro hs; simp [hs]
  · intro hs; simp [hs]
  · intro hs le batch
    simp [hs, renderTField, renderItems, renderItem]

/-- C5 (witness): an instance with no public address attribute renders
the public-address template as the empty string without error. -/
theorem populate_address_defaults_witness :
    (populate noPubEC2 "i-1" "Z1").1 = .ok noPubData ∧
    renderTField scenLE noPubData [] (.tmpl [.publicIP]) = (.ok "", []) :=
  ⟨rfl,
   (populate_address_defaults noPubEC2 "i-1" "Z1"
      ⟨some "i-1", some "10.0.0.1", none⟩ noPubData rfl rfl).2.2.2.2.2.2
     rfl scenLE []⟩

/-- C9: a negative rrSetIndex never trips the guard comparing
len(batch)-1 against it — even on the empty batch — so the slice access
is reached and the call faults instead of returning an error value; the
same holds for a negative rDataIndex once the looked-up value list has
been obtained. -/
theorem ExistingRDataValue_negative_index (le : ListEndpoint) (d : InstanceData)
    (batch : List Change) (i j : Int) :
    (i < 0 →
        ¬((batch.length : Int) - 1 < i) ∧
        (ExistingRDataValue le d batch i j).1 = .fault) ∧
    (∀ c vals, j < 0 → goIdx batch i = some c →
        ¬((batch.length : Int) - 1 < i) →
        FindRoute53ResourceRecord le d.HostedZoneID
            c.ResourceRecordSet.Name.srcText c.ResourceRecordSet.rrType =
          .ok vals →
        ¬((vals.length : Int) - 1 < j) ∧
        (ExistingRDataValue le d batch i j).1 = .fault) := by
  constructor
  · intro hi
    have hguard : ¬((batch.length : Int) - 1 < i) := by
      have : (0 : Int) ≤ (batch.length : Int) := Int.ofNat_nonneg _
      omega
    have hgo : goIdx batch i = none := by
      simp only [goIdx, if_neg (by omega : ¬(0 : Int) ≤ i)]
    refine ⟨hguard, ?_⟩
    simp only [ExistingRDataValue, if_neg hguard, hgo]
  · intro c vals hj hgo hguard hfind
    have hguard2 : ¬((vals.length : Int) - 1 < j) := by
      have : (0 : Int) ≤ (vals.length : Int) := Int.ofNat_nonneg _
      omega
    have hgo2 : goIdx vals j = none := by
      simp only [goIdx, if_neg (by omega : ¬(0 : Int) ≤ j)]
    refine ⟨hguard2, ?_⟩
    simp only [ExistingRDataValue, if_neg hguard, hgo, hfind, if_neg hguard2, hgo2]

/-- C6: the propagation driver polls on a fixed 5-unit schedule (the
k-th poll at time 5k); a pending status leaves the machine PENDING; the
machine transitions to INSYNC on the first poll reporting INSYNC and
the wait returns success; after 24 polls none of which reported INSYNC
it transitions to TIMED_OUT and the wait returns a failure value rather
than crashing; and every invocation submits at most one change batch. -/
theorem WaitForRoute53Sync_protocol :
    (∀ poll : Nat → Except String String,
        (WaitForRoute53Sync poll).2 =
          (List.range (WaitForRoute53Sync poll).2.length).map (fun k => 5 * k)) ∧
    (waiterStep "INSYNC" (Except.ok "PENDING") = .PENDING) ∧
    (∀ poll i, i < 24 →
        (∀ k, k < i → poll k ≠ .ok "INSYNC") →
        poll i = .ok "INSYNC" →
        (WaitForRoute53Sync poll).1 = .INSYNC ∧
        (WaitForRoute53Sync poll).2.length = i + 1 ∧
        waitResult (WaitForRoute53Sync poll).1 = .ok ()) ∧
    (∀ poll, (∀ k, k < 24 → poll k ≠ .ok "INSYNC") →
        (WaitForRoute53Sync poll).1 = .TIMED_OUT ∧
        (WaitForRoute53Sync poll).2.length = 24 ∧
        waitResult (WaitForRoute53Sync poll).1 =
          .error "exceeded 24 wait attempts") ∧
    (∀ env raw, (submits (handle env raw).2).length ≤ 1) := by
  refine ⟨?_, rfl, ?_, ?_, handle_submits_le1⟩
  · intro poll
    have h := waiterRun_times poll "INSYNC" 5 24 0 0
    simp only [WaitForRoute53Sync]
    rw [h]
    simp
  · intro poll i hi hpre hsync
    have h := waiterRun_firstSync poll "INSYNC" 5 i 24 0 0 hi
      (fun k _ hk2 => waiterStep_ne_insync (poll k) (hpre k (by omega)))
      (by rw [Nat.zero_add, hsync]; simp [waiterStep])
    simp only [WaitForRoute53Sync]
    refine ⟨h.1, h.2, ?_⟩
    simp only [WaitForRoute53Sync] at h ⊢
    rw [h.1]
    rfl
  · intro poll hnever
    have h := waiterRun_timeout poll "INSYNC" 5 24 0 0
      (fun k _ hk2 => waiterStep_ne_insync (poll k) (hnever k (by omega)))
    simp only [WaitForRoute53Sync]
    refine ⟨h.1, h.2, ?_⟩
    rw [h.1]
    rfl

/-- C6 (witness): with INSYNC first reported on the third poll the
driver succeeds after 3 polls; with a status that never leaves pending
it times out after 24 polls. -/
theorem WaitForRoute53Sync_protocol_witness :
    ((WaitForRoute53Sync pollSync2).1 = .INSYNC ∧
      (WaitForRoute53Sync pollSync2).2.length = 3) ∧
    ((WaitForRoute53Sync pollPending).1 = .TIMED_OUT ∧
      (WaitForRoute53Sync pollPending).2.length = 24) := by
  constructor
  · have h := WaitForRoute53Sync_protocol.2.2.1 pollSync2 2 (by omega)
      (fun k hk => by
        intro hbad
        simp only [pollSync2, if_pos hk] at hbad
        exact absurd (Except.ok.inj hbad) (by decide))
      (by rfl)
    exact ⟨h.1, h.2.1⟩
  · have h := WaitForRoute53Sync_protocol.2.2.2.1 pollPending
      (fun k _ => by
        intro hbad
        simp only [pollPending] at hbad
        exact absurd (Except.ok.inj hbad) (by decide))
    exact ⟨h.1, h.2.1⟩

/-- C7: a transport error on one poll does not by itself move the
machine to a terminal state — the step stays PENDING and the loop
retries on the next tick with one unit of budget spent — and a run
whose polls all fail with transport errors terminates only when the
24-attempt budget is exhausted, as TIMED_OUT. -/
theorem waiter_transport_transient (poll : Nat → Except String String)
    (expected : String) (delay fuel attempt t : Nat) (e : String) :
    (poll attempt = .error e →
        waiterStep expected (poll attempt) = .PENDING ∧
        waiterRun poll expected delay (fuel+1) attempt t =
          ((waiterRun poll expected delay fuel (attempt+1) (t+delay)).1,
           t :: (waiterRun poll expected delay fuel (attempt+1) (t+delay)).2)) ∧
    ((∀ k, k < 24 → ∃ e2, poll k = .error e2) →
        (WaitForRoute53Sync poll).1 = .TIMED_OUT ∧
        (WaitForRoute53Sync poll).2.length = 24) := by
  constructor
  · intro h
    have hstep : waiterStep expected (poll attempt) = .PENDING := by
      rw [h]; rfl
    refine ⟨hstep, ?_⟩
    simp only [waiterRun, hstep]
  · intro h
    have ht := waiterRun_timeout poll "INSYNC" 5 24 0 0
      (fun k _ hk2 => by
        obtain ⟨e2, he2⟩ := h k (by omega)
        rw [he2]
        simp [waiterStep])
    exact ⟨ht.1, ht.2⟩

/-- C7 (witness): with every poll failing in transport, the step after
the first failure is still PENDING and the driver runs the full 24-poll
budget before timing out. -/
theorem waiter_transport_transient_witness :
    waiterStep "INSYNC" (pollErr 0) = .PENDING ∧
    (WaitForRoute53Sync pollErr).1 = .TIMED_OUT ∧
    (WaitForRoute53Sync pollErr).2.length = 24 := by
  refine ⟨((waiter_transport_transient pollErr "INSYNC" 5 23 0 0
    "transport error").1 rfl).1, ?_, ?_⟩
  · exact ((waiter_transport_transient pollErr "INSYNC" 5 0 0 0
      "transport error").2 (fun k _ => ⟨"transport error", rfl⟩)).1
  · exact ((waiter_transport_transient pollErr "INSYNC" 5 0 0 0
      "transport error").2 (fun k _ => ⟨"transport error", rfl⟩)).2

/-- C1: a decode failure, an instance-attribute lookup failure, or a
template-resolution failure makes the invocation return that error with
no lifecycle signal sent; a rejected submission, or a submission whose
propagation is not confirmed within the 24-poll budget, sends ABANDON
and returns no error; full success sends CONTINUE and returns no
error. -/
theorem handle_failure_boundary (env : Env) (raw : String) :
    (∀ e, parseFullEvent env raw = .error e →
        (handle env raw).1 = .err e ∧ signals (handle env raw).2 = []) ∧
    (∀ message args e pevs,
        parseFullEvent env raw = .ok (message, args) →
        env.newClient = .ok () →
        message.Event ≠ "autoscaling:TEST_NOTIFICATION" →
        populate env.ec2 message.EC2InstanceID args.HostedZoneID =
          (.error e, pevs) →
        (handle env raw).1 = .err e ∧ signals (handle env raw).2 = []) ∧
    (∀ message args d pevs e b1 tevs,
        parseFullEvent env raw = .ok (message, args) →
        env.newClient = .ok () →
        message.Event ≠ "autoscaling:TEST_NOTIFICATION" →
        populate env.ec2 message.EC2InstanceID args.HostedZoneID = (.ok d, pevs) →
        WriteTemplateFields env.listRRS d args.Changes = (.err e, b1, tevs) →
        (handle env raw).1 = .err e ∧ signals (handle env raw).2 = []) ∧
    (∀ message args d pevs b1 tevs e,
        parseFullEvent env raw = .ok (message, args) →
        env.newClient = .ok () →
        message.Event ≠ "autoscaling:TEST_NOTIFICATION" →
        populate env.ec2 message.EC2InstanceID args.HostedZoneID = (.ok d, pevs) →
        WriteTemplateFields env.listRRS d args.Changes = (.ok (), b1, tevs) →
        env.changeRRS args.HostedZoneID b1 = .error e →
        (handle env raw).1 = .ok () ∧ signals (handle env raw).2 = ["ABANDON"]) ∧
    (∀ message args d pevs b1 tevs changeID,
        parseFullEvent env raw = .ok (message, args) →
        env.newClient = .ok () →
        message.Event ≠ "autoscaling:TEST_NOTIFICATION" →
        populate env.ec2 message.EC2InstanceID args.HostedZoneID = (.ok d, pevs) →
        WriteTemplateFields env.listRRS d args.Changes = (.ok (), b1, tevs) →
        env.changeRRS args.HostedZoneID b1 = .ok changeID →
        (∀ k, k < 24 → env.getChange changeID k ≠ .ok "INSYNC") →
        (handle env raw).1 = .ok () ∧ signals (handle env raw).2 = ["ABANDON"]) ∧
    (∀ message args d pevs b1 tevs changeID,
        parseFullEvent env raw = .ok (message, args) →
        env.newClient = .ok () →
        message.Event ≠ "autoscaling:TEST_NOTIFICATION" →
        populate env.ec2 message.EC2InstanceID args.HostedZoneID = (.ok d, pevs) →
        WriteTemplateFields env.listRRS d args.Changes = (.ok (), b1, tevs) →
        env.changeRRS args.HostedZoneID b1 = .ok changeID →
        (WaitForRoute53Sync (env.getChange changeID)).1 = .INSYNC →
        (handle env raw).1 = .ok () ∧
        signals (handle env raw).2 = ["CONTINUE"]) := by
  refine ⟨?_, ?_, ?_, ?_, ?_, ?_⟩
  · intro e h
    rw [handle_parse_err env raw e h]
    exact ⟨rfl, rfl⟩
  · intro message args e pevs hp hc he hpop
    have hpe : pevs = [HEvent.describeInstances [message.EC2InstanceID]] := by
      have h2 := populate_events env.ec2 message.EC2InstanceID args.HostedZoneID
      rw [hpop] at h2
      exact h2
    rw [handle_populate_err env raw message args e pevs hp hc he hpop, hpe]
    exact ⟨rfl, rfl⟩
  · intro message args d pevs e b1 tevs hp hc he hpop hw
    have hpe : pevs = [HEvent.describeInstances [message.EC2InstanceID]] := by
      have h2 := populate_events env.ec2 message.EC2InstanceID args.HostedZoneID
      rw [hpop] at h2
      exact h2
    rw [handle_template_err env raw message args d pevs e b1 tevs hp hc he hpop hw]
    subst hpe
    refine ⟨rfl, ?_⟩
    rw [signals_append, signals_tevToH]
    rfl
  · intro message args d pevs b1 tevs e hp hc he hpop hw hs
    have hpe : pevs = [HEvent.describeInstances [message.EC2InstanceID]] := by
      have h2 := populate_events env.ec2 message.EC2InstanceID args.HostedZoneID
      rw [hpop] at h2
      exact h2
    rw [handle_submit_err env raw message args d pevs b1 tevs e hp hc he hpop hw hs]
    subst hpe
    refine ⟨rfl, ?_⟩
    rw [signals_append, signals_append, signals_append, signals_tevToH]
    rfl
  · intro message args d pevs b1 tevs changeID hp hc he hpop hw hs hnever
    have hpe : pevs = [HEvent.describeInstances [message.EC2InstanceID]] := by
      have h2 := populate_events env.ec2 message.EC2InstanceID args.HostedZoneID
      rw [hpop] at h2
      exact h2
    have hst : (WaitForRoute53Sync (env.getChange changeID)).1 ≠ .INSYNC := by
      have ht := waiterRun_timeout (env.getChange changeID) "INSYNC" 5 24 0 0
        (fun k _ hk2 =>
          waiterStep_ne_insync (env.getChange changeID k) (hnever k (by omega)))
      simp only [WaitForRoute53Sync]
      rw [ht.1]
      simp
    rw [handle_wait_fail env raw message args d pevs b1 tevs changeID
      hp hc he hpop hw hs hst]
    subst hpe
    refine ⟨rfl, ?_⟩
    rw [signals_append, signals_append, signals_append, signals_tevToH]
    rfl
  · intro message args d pevs b1 tevs changeID hp hc he hpop hw hs hst
    have hpe : pevs = [HEvent.describeInstances [message.EC2InstanceID]] := by
      have h2 := populate_events env.ec2 message.EC2InstanceID args.HostedZoneID
      rw [hpop] at h2
      exact h2
    rw [handle_success env raw message args d pevs b1 tevs changeID
      hp hc he hpop hw hs hst]
    subst hpe
    refine ⟨rfl, ?_⟩
    rw [signals_append, signals_append, signals_append, signals_tevToH]
    rfl

/-- C1 (witness): with the submission endpoint rejecting the batch the
invocation sends ABANDON and returns no error; with submission accepted
and the change syncing, it sends CONTINUE and returns no error. -/
theorem handle_failure_boundary_witness :
    ((handle envAbandon "raw").1 = .ok () ∧
      signals (handle envAbandon "raw").2 = ["ABANDON"]) ∧
    ((handle envContinue "raw").1 = .ok () ∧
      signals (handle envContinue "raw").2 = ["CONTINUE"]) := by
  constructor
  · exact (handle_failure_boundary envAbandon "raw").2.2.2.1
      liveMsg liveArgs scenData [HEvent.describeInstances ["i-123456789"]]
      renderedScenBatch scenTrace "SubmitError"
      rfl rfl (by decide) rfl rfl rfl
  · exact (handle_failure_boundary envContinue "raw").2.2.2.2.2
      liveMsg liveArgs scenData [HEvent.describeInstances ["i-123456789"]]
      renderedScenBatch scenTrace "CHANGE123435"
      rfl rfl (by decide) rfl rfl rfl rfl

/-- C8: a well-formed payload whose inner message is the reserved test
notification stops after decoding — the metadata decoder is never
consulted (any environment agreeing on the two payload decoders decodes
to the same empty instruction), and the invocation completes without
error and with an empty collaborator trace: no instance lookup, no
listing, no submission, no lifecycle signal. -/
theorem handle_test_notification (env : Env) (raw : String)
    (evn : EventNotification) (rec1 : EventRecord) (rest : List EventRecord)
    (msg : SnsMessage)
    (ho : env.parseOuterJSON raw = .ok evn)
    (hr : evn.Records = rec1 :: rest)
    (hi : env.parseInnerJSON rec1.Sns.Message = .ok msg)
    (he : msg.Event = "autoscaling:TEST_NOTIFICATION")
    (hc : env.newClient = .ok ()) :
    parseFullEvent env raw = .ok (msg, ⟨"", []⟩) ∧
    (∀ env2 : Env, env2.parseOuterJSON = env.parseOuterJSON →
        env2.parseInnerJSON = env.parseInnerJSON →
        parseFullEvent env2 raw = .ok (msg, ⟨"", []⟩)) ∧
    handle env raw = (.ok (), []) := by
  have hpf : parseFullEvent env raw = .ok (msg, ⟨"", []⟩) := by
    simp only [parseFullEvent, ho, hr, hi, if_pos he]
  refine ⟨hpf, ?_, ?_⟩
  · intro env2 h1 h2
    simp only [parseFullEvent, h1, ho, hr, h2, hi, if_pos he]
  · exact handle_test_branch env raw msg ⟨"", []⟩ hpf hc he

/-- C8 (witness): the test-notification environment completes without
error and with an empty trace. -/
theorem handle_test_notification_witness :
    handle envTest "raw" = (.ok (), []) :=
  (handle_test_notification envTest "raw" ⟨[⟨⟨"inner"⟩⟩]⟩ ⟨⟨"inner"⟩⟩ [] testMsg
    rfl rfl rfl rfl rfl).2.2

/-- C9 (witness): on a one-entry batch, rrSetIndex -1 faults, and
rDataIndex -1 faults after a successful lookup of entry 0. -/
theorem ExistingRDataValue_negative_index_witness :
    (ExistingRDataValue negLE negD negBatch (-1) 0).1 = .fault ∧
    (ExistingRDataValue negLE negD negBatch 0 (-1)).1 = .fault :=
  ⟨((ExistingRDataValue_negative_index negLE negD negBatch (-1) 0).1
      (by decide)).2,
   ((ExistingRDataValue_negative_index negLE negD negBatch 0 (-1)).2
      ⟨"UPSERT", ⟨.tmpl [.lit "n.example.com."], 300, "A", [⟨.tmpl [.lit "v"]⟩]⟩⟩
      ["1.2.3.4"] (by decide) rfl (by decide) rfl).2⟩

end Asg53
